import Mathlib

/-!
Verification of the sphinx-galleria generation engine.

This file gives a shallow embedding, in Lean, of the core of the
repository (the files `sphinx_galleria/py_source_parser.py` and
`sphinx_galleria/gen_rst.py`) and proves or refutes the frozen claims
about it.

Modelling conventions:
* Python strings are Lean `String`s; all operations used by the code
  (`strip`, `split`, `dedent`, ...) are re-implemented over `String.data`
  (lists of characters) so every definition is executable and
  kernel-reducible.
* The CPython runtime services the code calls out to (the `ast` parser and
  tokenizer, `ast.literal_eval`, `matplotlib`, `re.search` over a
  user-supplied pattern, wall-clock time) are modelled as explicit oracle
  parameters; everything the repository itself computes is translated
  faithfully from the source.
* The filesystem is an explicit map `String → Option String` (path to
  file bytes); `os.chdir`, `sys.stdout` and `sys.argv` live in an explicit
  process-state record.
* Fallible Python code returns `Except PyErr _`; an uncaught exception is
  an `Except.error`.
-/

/-! ## Python string primitives (re-implemented over lists of characters) -/

/-- The character set of Python `str.strip()` / `str.isspace()` for the
ASCII range: space, tab, newline, carriage return, vertical tab, form feed.
(The sources are normalized to `\n` line endings before processing.) -/
def pyIsSpace (c : Char) : Bool :=
  c = ' ' ∨ c = '\t' ∨ c = '\n' ∨ c = '\r' ∨ c = '\x0b' ∨ c = '\x0c'

/-- Python `str.lstrip()` (no argument): drop leading whitespace. -/
def pylstrip (s : String) : String :=
  ⟨s.data.dropWhile pyIsSpace⟩

/-- Python `str.rstrip()` (no argument): drop trailing whitespace. -/
def pyrstrip (s : String) : String :=
  ⟨(s.data.reverse.dropWhile pyIsSpace).reverse⟩

/-- Python `str.strip()` (no argument). -/
def pystrip (s : String) : String :=
  pylstrip (pyrstrip s)

/-- Truthiness of `s.strip()` in a Python `if`: the stripped string is
non-empty. -/
def stripTruthy (s : String) : Bool :=
  pystrip s ≠ ""

/-- `s` contains at least one non-whitespace character. -/
def hasNonWS (s : String) : Bool :=
  s.data.any (fun c => ¬ pyIsSpace c)

theorem dropWhile_eq_nil_iff_all {p : Char → Bool} {l : List Char} :
    l.dropWhile p = [] ↔ ∀ c ∈ l, p c := by
  induction l with
  | nil => simp
  | cons c l ih =>
    by_cases h : p c <;> simp [List.dropWhile, h, ih]

theorem pylstrip_eq_empty_iff (s : String) :
    pylstrip s = "" ↔ ∀ c ∈ s.data, pyIsSpace c := by
  unfold pylstrip
  rw [show ("" : String) = ⟨[]⟩ from rfl, String.ext_iff]
  simp only []
  exact dropWhile_eq_nil_iff_all

theorem pyrstrip_eq_empty_iff (s : String) :
    pyrstrip s = "" ↔ ∀ c ∈ s.data, pyIsSpace c := by
  unfold pyrstrip
  rw [show ("" : String) = ⟨[]⟩ from rfl, String.ext_iff]
  simp only [List.reverse_eq_nil_iff]
  rw [dropWhile_eq_nil_iff_all]
  constructor
  · intro h c hc; exact h c (List.mem_reverse.mpr hc)
  · intro h c hc; exact h c (List.mem_reverse.mp hc)

theorem pystrip_eq_empty_iff (s : String) :
    pystrip s = "" ↔ ∀ c ∈ s.data, pyIsSpace c := by
  unfold pystrip
  rw [pylstrip_eq_empty_iff]
  constructor
  · intro h c hc
    by_cases hws : ∀ d ∈ s.data, pyIsSpace d
    · exact hws c hc
    · exfalso
      -- the last kept char of pyrstrip s is non-whitespace by construction,
      -- yet h says every char of pyrstrip s is whitespace
      have hne : pyrstrip s ≠ "" := fun he => hws ((pyrstrip_eq_empty_iff s).mp he)
      have hex : ∃ d ∈ (pyrstrip s).data, ¬ pyIsSpace d := by
        unfold pyrstrip at hne ⊢
        rcases hd : s.data.reverse.dropWhile pyIsSpace with _ | ⟨d, rest⟩
        · exact absurd (show (⟨(s.data.reverse.dropWhile pyIsSpace).reverse⟩ : String) = ""
            from by rw [hd]; rfl) hne
        · refine ⟨d, by simp [hd], ?_⟩
          have hh := List.head?_dropWhile_not pyIsSpace s.data.reverse
          rw [hd] at hh
          simpa using hh
      obtain ⟨d, hd1, hd2⟩ := hex
      exact hd2 (h d hd1)
  · intro h c hc
    unfold pyrstrip at hc
    apply h
    have hc2 := (List.dropWhile_sublist (l := s.data.reverse) (p := pyIsSpace)).subset
      (List.mem_reverse.mp hc)
    exact List.mem_reverse.mp hc2

theorem stripTruthy_iff_hasNonWS (s : String) :
    stripTruthy s = true ↔ hasNonWS s = true := by
  have h1 : stripTruthy s = true ↔ ¬ (pystrip s = "") := by
    unfold stripTruthy
    by_cases h : pystrip s = "" <;> simp [h]
  rw [h1, pystrip_eq_empty_iff]
  unfold hasNonWS
  rw [List.any_eq_true]
  constructor
  · intro h
    by_contra hne
    apply h
    intro c hc
    by_contra hcs
    exact hne ⟨c, hc, by simpa using hcs⟩
  · rintro ⟨c, hc, hcs⟩ hall
    have hps := hall c hc
    simp [hps] at hcs

/-- Split a character list at each newline (Python `str.split("\n")`). -/
def splitNlData : List Char → List (List Char)
| [] => [[]]
| c :: rest =>
  let r := splitNlData rest
  if c = '\n' then [] :: r
  else match r with
       | [] => [[c]]      -- unreachable: splitNlData never returns []
       | l :: ls => (c :: l) :: ls

/-- Python `content.split("\n")`: the list of lines of `s` (newline
separators removed; a trailing newline yields a final empty line). -/
def pySplitLines (s : String) : List String :=
  (splitNlData s.data).map fun l => ⟨l⟩

/-- Python `"\n".join(lines)`. -/
def joinNl : List String → String
| [] => ""
| [l] => l
| l :: rest => l ++ "\n" ++ joinNl rest

/-- The raw text of a run of full lines inside a larger file: each line
with its terminating newline restored. -/
def joinTermLines (ls : List String) : String :=
  String.join (ls.map fun l => l ++ "\n")

theorem splitNlData_ne_nil (l : List Char) : splitNlData l ≠ [] := by
  induction l with
  | nil => simp [splitNlData]
  | cons c rest ih =>
    simp only [splitNlData]
    split
    · simp
    · rcases h : splitNlData rest with _ | ⟨a, b⟩
      · exact absurd h ih
      · simp

theorem splitNlData_append_nl (a b : List Char) (ha : '\n' ∉ a) :
    splitNlData (a ++ '\n' :: b) = a :: splitNlData b := by
  induction a with
  | nil => simp [splitNlData]
  | cons c rest ih =>
    have hc : c ≠ '\n' := fun h => ha (by simp [h])
    have hrest : '\n' ∉ rest := fun h => ha (by simp [h])
    simp only [List.cons_append, splitNlData, hc]
    rw [List.append_eq, ih hrest]
    simp

theorem splitNlData_no_nl (a : List Char) (ha : '\n' ∉ a) :
    splitNlData a = [a] := by
  induction a with
  | nil => rfl
  | cons c rest ih =>
    have hc : c ≠ '\n' := fun h => ha (by simp [h])
    have hrest : '\n' ∉ rest := fun h => ha (by simp [h])
    simp only [splitNlData, hc]
    rw [ih hrest]
    simp

/-- Splitting on newlines is a left inverse of joining with newlines, for a
non-empty list of newline-free lines. -/
theorem pySplitLines_joinNl (ls : List String) (hne : ls ≠ [])
    (hnl : ∀ l ∈ ls, '\n' ∉ l.data) :
    pySplitLines (joinNl ls) = ls := by
  induction ls with
  | nil => exact absurd rfl hne
  | cons l rest ih =>
    cases rest with
    | nil =>
      unfold pySplitLines
      rw [show joinNl [l] = l from rfl]
      rw [splitNlData_no_nl l.data (hnl l (by simp))]
      simp
    | cons m rest2 =>
      unfold pySplitLines
      rw [show joinNl (l :: m :: rest2) = l ++ "\n" ++ joinNl (m :: rest2) from rfl]
      have hdata : (l ++ "\n" ++ joinNl (m :: rest2)).data
          = l.data ++ '\n' :: (joinNl (m :: rest2)).data := by
        simp [String.data_append]
      rw [hdata, splitNlData_append_nl _ _ (hnl l (by simp))]
      have ihm := ih (by simp) (fun x hx => hnl x (by simp [hx]))
      unfold pySplitLines at ihm
      simpa using ihm

/-! ## Decimal rendering (Python `str(int)` and the `03` zero-pad format) -/

/-- One decimal digit as a character (argument taken mod 10). -/
def decDigit (d : Nat) : Char :=
  match d % 10 with
  | 0 => '0' | 1 => '1' | 2 => '2' | 3 => '3' | 4 => '4'
  | 5 => '5' | 6 => '6' | 7 => '7' | 8 => '8' | _ => '9'

/-- Value of a decimal digit character (non-digits map to 0). -/
def digitVal (c : Char) : Nat :=
  match c with
  | '0' => 0 | '1' => 1 | '2' => 2 | '3' => 3 | '4' => 4
  | '5' => 5 | '6' => 6 | '7' => 7 | '8' => 8 | '9' => 9
  | _ => 0

theorem digitVal_decDigit (d : Nat) : digitVal (decDigit d) = d % 10 := by
  have h : d % 10 < 10 := Nat.mod_lt _ (by omega)
  unfold decDigit
  interval_cases h : d % 10 <;> simp [digitVal]

/-- Decimal digit characters of a positive natural number (empty for 0);
fuel-based so the kernel can evaluate it (`n` itself is always enough fuel). -/
def natDigitsFuel : Nat → Nat → List Char
| _, 0 => []
| 0, _ + 1 => []
| f + 1, n + 1 => natDigitsFuel f ((n + 1) / 10) ++ [decDigit ((n + 1) % 10)]

def natDigits (n : Nat) : List Char := natDigitsFuel n n

theorem natDigitsFuel_congr (f1 : Nat) : ∀ (f2 n : Nat), n ≤ f1 → n ≤ f2 →
    natDigitsFuel f1 n = natDigitsFuel f2 n := by
  induction f1 with
  | zero =>
    intro f2 n h1 _
    interval_cases n
    cases f2 <;> rfl
  | succ g ih =>
    intro f2 n h1 h2
    match n, f2 with
    | 0, f2 => cases f2 <;> rfl
    | m + 1, 0 => omega
    | m + 1, h + 1 =>
      show natDigitsFuel g ((m + 1) / 10) ++ _ = natDigitsFuel h ((m + 1) / 10) ++ _
      have hd : (m + 1) / 10 ≤ m := by
        have := Nat.div_lt_self (Nat.succ_pos m) (show 1 < 10 by omega)
        omega
      rw [ih h ((m + 1) / 10) (by omega) (by omega)]

/-- Python `str(n)` for a natural number. -/
def natRepr (n : Nat) : String :=
  if n = 0 then "0" else ⟨natDigits n⟩

/-- Parse a digit string, most significant digit first, onto an accumulator. -/
def parseDecData : List Char → Nat → Nat
| [], acc => acc
| c :: r, acc => parseDecData r (acc * 10 + digitVal c)

theorem parseDecData_append (a b : List Char) (acc : Nat) :
    parseDecData (a ++ b) acc = parseDecData b (parseDecData a acc) := by
  induction a generalizing acc with
  | nil => rfl
  | cons c r ih => simp [parseDecData, ih]

theorem natDigits_succ (m : Nat) :
    natDigits (m + 1) = natDigits ((m + 1) / 10) ++ [decDigit ((m + 1) % 10)] := by
  show natDigitsFuel (m + 1) (m + 1) = _
  have hd : (m + 1) / 10 ≤ m := by
    have := Nat.div_lt_self (Nat.succ_pos m) (show 1 < 10 by omega)
    omega
  show natDigitsFuel m ((m + 1) / 10) ++ _ = _
  rw [natDigitsFuel_congr m ((m + 1) / 10) ((m + 1) / 10) hd (le_refl _)]
  rfl

theorem parseDecData_natDigits (n : Nat) (acc : Nat) :
    parseDecData (natDigits n) acc = acc * 10 ^ (natDigits n).length + n := by
  induction n using Nat.strong_induction_on generalizing acc with
  | _ n ih =>
    match n with
    | 0 => simp [natDigits, natDigitsFuel, parseDecData]
    | m + 1 =>
      rw [natDigits_succ, parseDecData_append]
      rw [ih ((m + 1) / 10) (Nat.div_lt_self (Nat.succ_pos m) (by omega))]
      simp only [parseDecData, digitVal_decDigit, List.length_append,
        List.length_singleton]
      rw [pow_succ]
      have := Nat.div_add_mod (m + 1) 10
      ring_nf
      omega

/-- Python `str(n)` parses back to `n`. -/
theorem parseDecData_natRepr (n : Nat) : parseDecData (natRepr n).data 0 = n := by
  unfold natRepr
  by_cases h : n = 0
  · subst h; rfl
  · simp only [h, if_false]
    rw [parseDecData_natDigits]
    simp

theorem parseDecData_zeros (k : Nat) (l : List Char) :
    parseDecData (List.replicate k '0' ++ l) 0 = parseDecData l 0 := by
  induction k with
  | zero => rfl
  | succ m ih =>
    simpa [List.replicate_succ, parseDecData, digitVal] using ih

/-- Python format `"{0:03}".format(n)`: decimal digits left-padded with zeros
to width 3. -/
def pad3 (n : Nat) : String :=
  ⟨List.replicate (3 - (natRepr n).length) '0' ++ (natRepr n).data⟩

theorem pad3_parse (n : Nat) : parseDecData (pad3 n).data 0 = n := by
  unfold pad3
  show parseDecData (List.replicate _ '0' ++ (natRepr n).data) 0 = n
  rw [parseDecData_zeros, parseDecData_natRepr]

theorem pad3_injective : Function.Injective pad3 := by
  intro a b h
  have := congrArg (fun s => parseDecData s.data 0) h
  simpa [pad3_parse] using this

/-! ## textwrap.dedent, textwrap.indent, str.expandtabs -/

/-- A line consisting solely of (at least one) space/tab characters
(`textwrap._whitespace_only_re`). -/
def isWsOnlyLine (l : String) : Bool :=
  l ≠ "" ∧ l.data.all fun c => c = ' ' ∨ c = '\t'

/-- A line containing a character that is not space or tab
(`textwrap._leading_whitespace_re` finds a match on it). -/
def hasIndentContent (l : String) : Bool :=
  l.data.any fun c => ¬ (c = ' ' ∨ c = '\t')

/-- The leading space/tab run of a line. -/
def lineIndent (l : String) : List Char :=
  l.data.takeWhile fun c => c = ' ' ∨ c = '\t'

/-- Longest common prefix of two character lists; the net effect of the
margin-update cases in `textwrap.dedent`. -/
def commonPrefix : List Char → List Char → List Char
| a :: as, b :: bs => if a = b then a :: commonPrefix as bs else []
| _, _ => []

/-- The common margin of the content lines (`none` when there is no content
line, mirroring `margin = None`). -/
def dedentMargin (ls : List String) : Option (List Char) :=
  ls.foldl
    (fun m l =>
      if hasIndentContent l then
        match m with
        | none => some (lineIndent l)
        | some mm => some (commonPrefix mm (lineIndent l))
      else m)
    none

/-- `textwrap.dedent` on a list of lines: whitespace-only lines are emptied,
then the common leading margin of the content lines is removed from every
line that starts with it. -/
def pydedentLines (ls : List String) : List String :=
  let emptied := ls.map fun l => if isWsOnlyLine l then "" else l
  match dedentMargin emptied with
  | none => emptied
  | some [] => emptied
  | some m =>
    emptied.map fun l =>
      if l.data.take m.length = m then ⟨l.data.drop m.length⟩ else l

/-- `textwrap.dedent` on a string. -/
def pydedent (text : String) : String :=
  joinNl (pydedentLines (pySplitLines text))

/-- `str.splitlines(True)`: split into lines, keeping the newline
terminators (sources are normalized to `\n` endings). -/
def splitTermAux : List Char → List Char → List (List Char)
| [], acc => if acc = [] then [] else [acc.reverse]
| c :: r, acc =>
  if c = '\n' then (acc.reverse ++ ['\n']) :: splitTermAux r []
  else splitTermAux r (c :: acc)

def pySplitlinesKeep (s : String) : List String :=
  (splitTermAux s.data []).map fun l => ⟨l⟩

/-- `textwrap.indent(text, prefix)` with the default predicate (and the
identical Python-2 fallback defined at the top of `gen_rst.py`): the prefix
is added to each line whose stripped form is non-empty. -/
def indentPy (pre : String) (text : String) : String :=
  String.join ((pySplitlinesKeep text).map fun l =>
    if stripTruthy l then pre ++ l else l)

/-- `str.expandtabs()` with the default tab size 8; the column counter
resets after newline and carriage return. -/
def expandTabsAux : List Char → Nat → List Char
| [], _ => []
| c :: r, col =>
  if c = '\t' then
    List.replicate (8 - col % 8) ' ' ++ expandTabsAux r (col + (8 - col % 8))
  else if c = '\n' ∨ c = '\r' then c :: expandTabsAux r 0
  else c :: expandTabsAux r (col + 1)

def pyExpandTabs (s : String) : String :=
  ⟨expandTabsAux s.data 0⟩

/-! ## Last characters, to separate output paths by their extensions -/

def lastCharOf (s : String) : Option Char :=
  s.data.getLast?

theorem lastCharOf_append (a b : String) (hb : b ≠ "") :
    lastCharOf (a ++ b) = lastCharOf b := by
  unfold lastCharOf
  rw [String.data_append]
  exact List.getLast?_append_of_ne_nil _ (fun h => hb (String.ext h))

theorem ne_of_lastCharOf_ne {s t : String} (h : lastCharOf s ≠ lastCharOf t) :
    s ≠ t := fun he => h (he ▸ rfl)

/-! ## Embedding of `sphinx_galleria/py_source_parser.py` -/

/-- Uncaught Python exceptions of the modelled code. -/
inductive PyErr where
| nameError      -- NameError (an undefined name such as the missing logger)
| valueError     -- ValueError
| typeError      -- TypeError
| fileNotFound   -- IOError/FileNotFoundError from open() on a missing path
| reraised       -- exception re-raised by handle_exception under abort_on_example_error
deriving DecidableEq, Repr

/-- The module constant `SYNTAX_ERROR_DOCSTRING` of `py_source_parser.py`. -/
def SYNTAX_ERROR_DOCSTRING : String :=
  "\nSyntaxError\n===========\n\nExample script with invalid Python syntax\n"

/-- Oracle for the CPython services used by `parse_source_file` and
`get_docstring_and_rest`: the outcome of `ast.parse` on the (already
line-ending-normalized) content, the module docstring the `ast`/`tokenize`
inspection finds, and the end row of the first string token.  These are
CPython runtime facts about the content, not code of this repository. -/
structure ParseOutcome where
  ok : Bool           -- ast.parse(content) succeeded (no SyntaxError)
  docstring : String  -- module-level docstring, "" when absent
  dsLines : Nat       -- end row of the first string token (ds_lines), 0 when absent
deriving DecidableEq, Repr

/-- `get_docstring_and_rest` (py_source_parser.py lines 57-120): on a
syntax error the synthetic docstring is substituted with the raw content as
the rest; otherwise the content after the docstring lines becomes the rest
and a missing docstring raises ValueError.  (The `ast.Module` TypeError
branch is unreachable: `ast.parse` in exec mode always returns a Module.) -/
def get_docstring_and_rest (content : String) (po : ParseOutcome) :
    Except PyErr (String × String × Nat) :=
  if po.ok = false then
    .ok (SYNTAX_ERROR_DOCSTRING, content, 1)
  else
    let ds_lines := po.dsLines
    let rest := joinNl ((pySplitLines content).drop ds_lines)
    let lineno := ds_lines + 1
    if po.docstring = "" then .error .valueError
    else .ok (po.docstring, rest, lineno)

/-- Python literal values, the possible results of `ast.literal_eval`. -/
inductive PyLit where
| pInt (n : Int)
| pStr (s : String)
| pBool (b : Bool)
| pNone
| pFloat (q : ℚ)
| pList (xs : List PyLit)

/-- Python truthiness of a literal (`if not x`). -/
def pyTruthy : PyLit → Bool
| .pInt n => n ≠ 0
| .pStr s => s ≠ ""
| .pBool b => b
| .pNone => false
| .pFloat q => q ≠ 0
| .pList [] => false
| .pList (_ :: _) => true

/-- A character allowed in a directive key: `[A-Za-z0-9_]`. -/
def dirKeyChar (c : Char) : Bool :=
  ('A' ≤ c ∧ c ≤ 'Z') ∨ ('a' ≤ c ∧ c ≤ 'z') ∨ ('0' ≤ c ∧ c ≤ '9') ∨ c = '_'

def stripExactPrefix : List Char → List Char → Option (List Char)
| [], l => some l
| p :: ps, c :: cs => if c = p then stripExactPrefix ps cs else none
| _ :: _, [] => none

/-- Matching of one line against the directive pattern
`^\s*#\s*sphinx_galleria_([A-Za-z0-9_]+)\s*=\s*(.+)\s*$` (MULTILINE), as
compiled in `extract_file_config`.  Matching is modelled line-locally: the
`\s` classes cannot reach a newline because the line contains none.  The
value group is the rest of the line after `=` minus the maximal leading
whitespace run that still leaves at least one character for `(.+)`. -/
def matchDirectiveLine (l : String) : Option (String × String) :=
  match l.data.dropWhile pyIsSpace with
  | '#' :: d2 =>
    match stripExactPrefix "sphinx_galleria_".data (d2.dropWhile pyIsSpace) with
    | none => none
    | some d4 =>
      let key := d4.takeWhile dirKeyChar
      if key = [] then none
      else
        match (d4.drop key.length).dropWhile pyIsSpace with
        | '=' :: d6 =>
          if d6 = [] then none
          else
            let v := d6.dropWhile pyIsSpace
            let value := if v = [] then d6.drop (d6.length - 1) else v
            some (⟨key⟩, ⟨value⟩)
        | _ => none
  | _ => none

/-- File-local configuration: the directive keys with their literal values,
in match order; a later binding of the same key overwrites an earlier one
(dict assignment), which `confGet` honours by taking the last binding. -/
def confGet (conf : List (String × PyLit)) (k : String) : Option PyLit :=
  (conf.reverse.find? fun p => p.1 = k).map (·.2)

/-- The loop body of `extract_file_config` (lines 132-142): each directive
match has its value passed to `ast.literal_eval` (the `literalEval` oracle;
`none` models `SyntaxError`/`ValueError`).  On a failed evaluation the
`except` handler executes `logger.warning(...)` — but `logger` is not
defined anywhere in `py_source_parser.py`, so a NameError escapes and
aborts the whole call.  A successful evaluation stores the binding. -/
def extractConfigLoop (literalEval : String → Option PyLit) :
    List String → List (String × PyLit) → Except PyErr (List (String × PyLit))
| [], acc => .ok acc
| l :: rest, acc =>
  match matchDirectiveLine l with
  | none => extractConfigLoop literalEval rest acc
  | some (name, value) =>
    match literalEval value with
    | none => .error .nameError
    | some v => extractConfigLoop literalEval rest (acc ++ [(name, v)])

/-- `extract_file_config` (py_source_parser.py lines 123-143). -/
def extract_file_config (literalEval : String → Option PyLit)
    (content : String) : Except PyErr (List (String × PyLit)) :=
  extractConfigLoop literalEval (pySplitLines content) []

/-! ### split_code_and_text_blocks -/

inductive BlockLabel where
| text
| code
deriving DecidableEq, Repr

/-- A parsed block: the tuple `(label, content, lineno)`. -/
structure Block where
  label : BlockLabel
  content : String
  lineno : Nat
deriving DecidableEq, Repr

/-- A line matching `^#{20,}`: it starts with at least twenty hashes. -/
def is_header_line (l : String) : Bool :=
  (l.data.takeWhile fun c => c = '#').length ≥ 20

/-- A line matching `^#`. -/
def is_comment_line (l : String) : Bool :=
  match l.data with
  | '#' :: _ => true
  | _ => false

/-- One match of the block pattern
`(?P<header_line>^#{20,}.*)\s(?P<text_content>(?:^#.*\s)*)`:
the lines before the header from the current scan position, the header
line itself, and the maximal run of following comment lines.  The `rest ≠ []`
side conditions model the `\s` after `.*`: the matched line must be
followed by its newline, i.e. it must not be the file's final unterminated
line.  (A final line without a newline but with interior whitespace could
still produce a partial match in Python; sources split here always carry a
final empty line from their trailing newline, where the two agree.) -/
structure HdrMatch where
  codePart : List String
  headerLine : String
  textLines : List String
  restLines : List String
deriving DecidableEq, Repr

/-- The `text_content` group: the maximal run of newline-terminated lines
starting with `#` (this swallows a directly following header line too,
exactly as the greedy `(?:^#.*\s)*` does). -/
def takeCommentRun : List String → List String × List String
| [] => ([], [])
| l :: rest =>
  if is_comment_line l ∧ rest ≠ [] then
    let p := takeCommentRun rest
    (l :: p.1, p.2)
  else ([], l :: rest)

/-- `re.finditer`: scan for the first header-line match at or after the
current position. -/
def findHeaderMatch : List String → Option HdrMatch
| [] => none
| l :: rest =>
  if is_header_line l ∧ rest ≠ [] then
    let p := takeCommentRun rest
    some ⟨[], l, p.1, p.2⟩
  else
    match findHeaderMatch rest with
    | none => none
    | some m => some ⟨l :: m.codePart, m.headerLine, m.textLines, m.restLines⟩

theorem takeCommentRun_rest_le (ls : List String) :
    (takeCommentRun ls).2.length ≤ ls.length := by
  induction ls with
  | nil => simp [takeCommentRun]
  | cons l rest ih =>
    simp only [takeCommentRun]
    split
    · simpa using Nat.le_succ_of_le ih
    · simp

theorem findHeaderMatch_rest_lt (ls : List String) (m : HdrMatch)
    (hm : findHeaderMatch ls = some m) : m.restLines.length < ls.length := by
  induction ls generalizing m with
  | nil => simp [findHeaderMatch] at hm
  | cons l rest ih =>
    simp only [findHeaderMatch] at hm
    split at hm
    · injection hm with hm
      subst hm
      have := takeCommentRun_rest_le rest
      simp only [List.length_cons]
      omega
    · revert hm
      split
      · intro hm; cases hm
      · rename_i m2 hm2
        intro hm
        injection hm with hm
        subst hm
        have := ih m2 hm2
        simp only [List.length_cons]
        omega

/-- `sub_pat = re.compile('^#', flags=re.M)`: `re.sub(sub_pat, '', ...)`
removes one leading hash from each line. -/
def subLeadingHash (l : String) : String :=
  match l.data with
  | '#' :: r => ⟨r⟩
  | _ => l

/-- `dedent(re.sub(sub_pat, '', match.group('text_content'))).lstrip()`:
the text content is the comment lines each with its newline, so its
newline-split is the de-hashed lines plus a final empty line. -/
def textBlockContent (textLines : List String) : String :=
  pylstrip (joinNl (pydedentLines ((textLines.map subLeadingHash) ++ [""])))

/-- The `finditer` loop of `split_code_and_text_blocks` (lines 168-187)
over the line-split of `rest_of_content`, tracking the cumulative line
number exactly as the source does: the code chunk advances `lineno` by its
newline count, the ignored header line by one, the text chunk by its
newline count. -/
def split_loop_fuel : Nat → List String → Nat → List Block
| 0, _, _ => []
| fuel + 1, lines, lineno =>
  match findHeaderMatch lines with
  | none =>
    let remaining_content := joinNl lines
    if stripTruthy remaining_content then [⟨.code, remaining_content, lineno⟩]
    else []
  | some m =>
    let code_block_content := joinTermLines m.codePart
    let blks1 := if stripTruthy code_block_content
                 then [⟨.code, code_block_content, lineno⟩] else []
    let lineno2 := lineno + m.codePart.length + 1
    let text_content := textBlockContent m.textLines
    let blks2 := if stripTruthy text_content
                 then [⟨.text, text_content, lineno2⟩] else []
    blks1 ++ blks2 ++ split_loop_fuel fuel m.restLines (lineno2 + m.textLines.length)

def split_loop (lines : List String) (lineno : Nat) : List Block :=
  split_loop_fuel (lines.length + 1) lines lineno

/-- Each match strictly shrinks the remaining line list, so any fuel above
`lines.length` computes the same result; `split_loop` therefore satisfies
the obvious recurrences (`split_loop_none` / `split_loop_some`). -/
theorem split_loop_fuel_congr (f1 : Nat) : ∀ (f2 : Nat) (lines : List String)
    (lineno : Nat), lines.length < f1 → lines.length < f2 →
    split_loop_fuel f1 lines lineno = split_loop_fuel f2 lines lineno := by
  induction f1 with
  | zero => intro f2 lines lineno h1 _; omega
  | succ g ih =>
    intro f2 lines lineno h1 h2
    match f2 with
    | 0 => omega
    | h + 1 =>
      simp only [split_loop_fuel]
      rcases hm : findHeaderMatch lines with _ | m
      · rfl
      · have hlt := findHeaderMatch_rest_lt lines m hm
        dsimp only
        rw [ih h m.restLines _ (by omega) (by omega)]

theorem split_loop_fuel_succ (fuel : Nat) (lines : List String) (lineno : Nat) :
    split_loop_fuel (fuel + 1) lines lineno =
      match findHeaderMatch lines with
      | none =>
        if stripTruthy (joinNl lines) then [⟨.code, joinNl lines, lineno⟩]
        else []
      | some m =>
        (if stripTruthy (joinTermLines m.codePart)
         then [⟨.code, joinTermLines m.codePart, lineno⟩] else []) ++
        (if stripTruthy (textBlockContent m.textLines)
         then [⟨.text, textBlockContent m.textLines,
                lineno + m.codePart.length + 1⟩] else []) ++
        split_loop_fuel fuel m.restLines
          (lineno + m.codePart.length + 1 + m.textLines.length) := rfl

theorem split_loop_none (lines : List String) (lineno : Nat)
    (hm : findHeaderMatch lines = none) :
    split_loop lines lineno =
      (if stripTruthy (joinNl lines) then [⟨.code, joinNl lines, lineno⟩]
       else []) := by
  unfold split_loop
  rw [split_loop_fuel_succ, hm]

theorem split_loop_some (lines : List String) (lineno : Nat) (m : HdrMatch)
    (hm : findHeaderMatch lines = some m) :
    split_loop lines lineno =
      (if stripTruthy (joinTermLines m.codePart)
       then [⟨.code, joinTermLines m.codePart, lineno⟩] else []) ++
      (if stripTruthy (textBlockContent m.textLines)
       then [⟨.text, textBlockContent m.textLines,
              lineno + m.codePart.length + 1⟩] else []) ++
      split_loop m.restLines (lineno + m.codePart.length + 1 + m.textLines.length) := by
  unfold split_loop
  rw [split_loop_fuel_succ, hm]
  dsimp only
  have hlt := findHeaderMatch_rest_lt lines m hm
  rw [split_loop_fuel_congr lines.length (m.restLines.length + 1) m.restLines _
    (by omega) (by omega)]

/-- `split_code_and_text_blocks` (py_source_parser.py lines 146-188),
over the file content and the parse oracle. -/
def split_code_and_text_blocks (literalEval : String → Option PyLit)
    (content : String) (po : ParseOutcome) :
    Except PyErr (List (String × PyLit) × List Block) :=
  match get_docstring_and_rest content po with
  | .error e => .error e
  | .ok (docstring, rest_of_content, lineno) =>
    match extract_file_config literalEval rest_of_content with
    | .error e => .error e
    | .ok file_conf =>
      .ok (file_conf,
        ⟨.text, docstring, 1⟩ :: split_loop (pySplitLines rest_of_content) lineno)

/-! ## Embedding of `sphinx_galleria/gen_rst.py` -/

/-! ### Path and substring helpers (os.path on already-normalized paths) -/

/-- Split a character list at each occurrence of `sep`. -/
def splitCharData (sep : Char) : List Char → List (List Char)
| [] => [[]]
| c :: rest =>
  let r := splitCharData sep rest
  if c = sep then [] :: r
  else match r with
       | [] => [[c]]      -- unreachable: splitCharData never returns []
       | l :: ls => (c :: l) :: ls

/-- Replace every occurrence of a character (`str.replace` with one-character
arguments, and `re.sub` with a one-character pattern). -/
def replaceAllChar (s : String) (a b : Char) : String :=
  ⟨s.data.map fun c => if c = a then b else c⟩

/-- `str.lstrip('/')`. -/
def lstripSlash (s : String) : String :=
  ⟨s.data.dropWhile fun c => c = '/'⟩

def isPrefixData : List Char → List Char → Bool
| [], _ => true
| _ :: _, [] => false
| a :: as, b :: bs => a = b ∧ isPrefixData as bs

def isInfixData (n : List Char) : List Char → Bool
| [] => n.isEmpty
| c :: t => isPrefixData n (c :: t) ∨ isInfixData n t

/-- Python `needle in hay`. -/
def containsSub (hay needle : String) : Bool :=
  isInfixData needle.data hay.data

def endsWithData (suffix : List Char) (l : List Char) : Bool :=
  isPrefixData suffix.reverse l.reverse

/-- `os.path.join` of a directory and a relative component. -/
def pathJoin (sep : Char) (a b : String) : String :=
  a ++ ⟨[sep]⟩ ++ b

/-- `os.path.dirname`: everything before the last separator. -/
def pathDirname (sep : Char) (s : String) : String :=
  match (s.data.reverse.dropWhile fun c => c ≠ sep) with
  | [] => ""
  | _ :: r => ⟨r.reverse⟩

/-- `os.path.basename`: everything after the last separator. -/
def pathBasename (sep : Char) (s : String) : String :=
  ⟨(s.data.reverse.takeWhile fun c => c ≠ sep).reverse⟩

/-- `os.path.splitext(...)[0]`: strip the extension after the last dot,
when there is one. -/
def splitextRoot (s : String) : String :=
  if (s.data.reverse.takeWhile fun c => c ≠ '.').length = s.data.length then s
  else ⟨(s.data.reverse.dropWhile fun c => c ≠ '.').reverse.dropLast⟩

/-- Number of equal leading components of two component lists. -/
def commonCompLen : List (List Char) → List (List Char) → Nat
| a :: as, b :: bs => if a = b then commonCompLen as bs + 1 else 0
| _, _ => 0

/-- `os.path.relpath(path, start)` for already-absolute, already-normalized
paths (the callers pass absolute build paths): split both into non-empty
components, drop the common prefix, climb with `..` for what remains of
`start` and descend into what remains of `path`. -/
def os_relpath (sep : Char) (path start : String) : String :=
  let pl := (splitCharData sep path.data).filter (· ≠ [])
  let sl := (splitCharData sep start.data).filter (· ≠ [])
  let i := commonCompLen pl sl
  let rel := List.replicate (sl.length - i) ('.' :: ['.']) ++ pl.drop i
  if rel = [] then "."
  else ⟨(rel.intersperse [sep]).flatten⟩

/-- `"{0:03}"` applied to a Python int (negative numbers keep the sign and
pad to a total width of three). -/
def pad3Int (n : Int) : String :=
  if n < 0 then
    "-" ++ ⟨List.replicate (2 - (natRepr (-n).toNat).length) '0' ++ (natRepr (-n).toNat).data⟩
  else pad3 n.toNat

/-! ### The rst templates of gen_rst.py (format slots spelled as functions) -/

/-- `HLIST_HEADER`. -/
def HLIST_HEADER : String :=
  "\n.. rst-class:: sphx-glr-horizontal\n\n"

/-- `HLIST_IMAGE_TEMPLATE % figure_name`. -/
def HLIST_IMAGE_TEMPLATE (figure_name : String) : String :=
  "\n    *\n\n      .. image:: /" ++ figure_name ++
  "\n            :class: sphx-glr-multi-img\n"

/-- `SINGLE_IMAGE % figure_name`. -/
def SINGLE_IMAGE (figure_name : String) : String :=
  "\n.. image:: /" ++ figure_name ++ "\n    :class: sphx-glr-single-img\n"

/-- `CODE_OUTPUT.format(indented_stdout)`. -/
def CODE_OUTPUT (s : String) : String :=
  ".. rst-class:: sphx-glr-script-out\n\n Out::\n\n" ++ s ++ "\n"

/-- `SPHX_GLR_SIG`. -/
def SPHX_GLR_SIG : String :=
  "\n\n.. only:: html\n\n .. rst-class:: sphx-glr-signature\n\n    `Gallery generated by Sphinx-Gallery <https://sphinx-gallery.readthedocs.io>`_\n"

/-! ### codestr2rst -/

/-- `codestr.count('\n', 0, -len(codestr.lstrip()))`: newlines inside the
leading whitespace (with Python's `-0` slice quirk: an all-whitespace string
yields the empty slice, hence 0). -/
def leadingBlankLines (codestr : String) : Nat :=
  if pylstrip codestr = "" then 0
  else
    let k := codestr.data.length - (pylstrip codestr).data.length
    ((codestr.data.take k).filter fun c => c = '\n').length

/-- `codestr2rst` (gen_rst.py lines 189-202).  `sphinx_ge_1_3` is the
`LooseVersion(sphinx.__version__) >= '1.3'` environment test. -/
def codestr2rst (codestr : String) (lang : String) (lineno : Option Nat)
    (sphinx_ge_1_3 : Bool) : String :=
  let linenoStr :=
    match lineno with
    | some n =>
      if sphinx_ge_1_3 then
        "   :lineno-start: " ++ natRepr (n + leadingBlankLines codestr) ++ "\n"
      else "   :linenos:\n"
    | none => ""
  let code_directive := "\n.. code-block:: " ++ lang ++ "\n" ++ linenoStr ++ "\n"
  let indented_block := indentPy "    " codestr
  code_directive ++ indented_block

/-! ### extract_intro_and_title -/

/-- Split a character list at each `"\n\n"` (Python `str.split("\n\n")`,
non-overlapping, left to right). -/
def splitDoubleNl : List Char → List (List Char)
| [] => [[]]
| '\n' :: '\n' :: rest => [] :: splitDoubleNl rest
| c :: rest =>
  match splitDoubleNl rest with
  | [] => [[c]]      -- unreachable
  | l :: ls => (c :: l) :: ls

/-- First match of `([\w ]+)`: the first maximal run of word characters and
spaces (`\w` modelled over ASCII). -/
def firstWordRun (l : List Char) : Option (List Char) :=
  let rest := l.dropWhile fun c => ¬ (dirKeyChar c ∨ c = ' ')
  if rest = [] then none
  else some (rest.takeWhile fun c => dirKeyChar c ∨ c = ' ')

/-- `extract_intro_and_title` (gen_rst.py lines 205-235). -/
def extract_intro_and_title (docstring : String) :
    Except PyErr (String × String) :=
  let paragraphs := (splitDoubleNl (pylstrip docstring).data).map
    (fun l => (⟨l⟩ : String))
  let paragraphs := paragraphs.filter fun p =>
    ¬ isPrefixData ".. ".data p.data ∧ p.data.length > 0
  match paragraphs with
  | [] => .error .valueError
  | title_paragraph :: restPars =>
    match firstWordRun title_paragraph.data with
    | none => .error .valueError
    | some run =>
      let title := pystrip ⟨run⟩
      let intro_paragraph := match restPars with
        | [] => title
        | p :: _ => p
      let intro := replaceAllChar intro_paragraph '\n' ' '
      let intro := if intro.data.length > 95
                   then ⟨intro.data.take 95⟩ ++ "..." else intro
      .ok (intro, title)

/-! ### md5 fingerprints -/

/-- The filesystem: file path to file content. -/
def FS : Type := String → Option String

def fsWrite (fs : FS) (k v : String) : FS :=
  fun p => if p = k then some v else fs p

/-- `get_md5sum` (gen_rst.py lines 238-245); `md5h` is the `hashlib.md5`
hexdigest oracle. -/
def get_md5sum (md5h : String → String) (fs : FS) (src_file : String) :
    Except PyErr String :=
  match fs src_file with
  | none => .error .fileNotFound
  | some src_content => .ok (md5h src_content)

/-- `md5sum_is_current` (gen_rst.py lines 248-260). -/
def md5sum_is_current (md5h : String → String) (fs : FS) (src_file : String) :
    Except PyErr Bool :=
  match get_md5sum md5h fs src_file with
  | .error e => .error e
  | .ok src_md5 =>
    match fs (src_file ++ ".md5") with
    | some ref_md5 => .ok (src_md5 = ref_md5)
    | none => .ok false

/-! ### figure_rst -/

/-- `figure_rst` (gen_rst.py lines 318-351). -/
def figure_rst (sep : Char) (figure_list : List String) (sources_dir : String) :
    String × Nat :=
  let figure_paths := figure_list.map fun figure_path =>
    lstripSlash (replaceAllChar (os_relpath sep figure_path sources_dir) sep '/')
  let images_rst :=
    if figure_paths.length = 1 then SINGLE_IMAGE (figure_paths.getD 0 "")
    else if figure_paths.length > 1 then
      HLIST_HEADER ++ String.join (figure_paths.map HLIST_IMAGE_TEMPLATE)
    else ""
  (images_rst, figure_list.length)

/-! ### scale_image (geometric model over PIL images) -/

/-- A PIL image: dimensions plus pixel payload of an abstract type `Pix`
(the pixel-level operations `Image.resize` / `Image.new` / `Image.paste`
are PIL internals, abstracted as parameters while the geometry the
repository computes is kept exact). -/
structure PILImage (Pix : Type) where
  width : Nat
  height : Nat
  data : Pix

/-- Python 3 `round` to an integer: round half to even.  (CPython rounds
the float value; the rational model is exact on the dyadic values involved
and agrees on every comparison the claims exercise.) -/
def pyround (q : ℚ) : ℤ :=
  let f := ⌊q⌋
  let r := q - f
  if r < 1/2 then f
  else if 1/2 < r then f + 1
  else if Even f then f else f + 1

/-- `scale_image` (gen_rst.py lines 354-392), over an image-valued
filesystem.  `resizeData`/`canvasData`/`pasteData` are the pixel-payload
effects of `img.resize`, `Image.new('RGB', ..., (255, 255, 255))` and
`thumb.paste`; positions use Python floor division. -/
def scale_image {Pix : Type} (resizeData : PILImage Pix → Nat → Nat → Pix)
    (canvasData : Nat → Nat → Pix) (pasteData : Pix → Pix → ℤ × ℤ → Pix)
    (fs : String → Option (PILImage Pix)) (in_fname out_fname : String)
    (max_width max_height : Nat) :
    Except PyErr (String → Option (PILImage Pix)) :=
  match fs in_fname with
  | none => .error .fileNotFound
  | some img =>
    let width_in := img.width
    let height_in := img.height
    let scale_w : ℚ := (max_width : ℚ) / (width_in : ℚ)
    let scale_h : ℚ := (max_height : ℚ) / (height_in : ℚ)
    let scale := if (height_in : ℚ) * scale_w ≤ (max_height : ℚ)
                 then scale_w else scale_h
    if 1 ≤ scale ∧ in_fname = out_fname then .ok fs
    else
      let width_sc := (pyround (scale * (width_in : ℚ))).toNat
      let height_sc := (pyround (scale * (height_in : ℚ))).toNat
      let img2 : PILImage Pix := ⟨width_sc, height_sc, resizeData img width_sc height_sc⟩
      let pos_insert : ℤ × ℤ :=
        (Int.fdiv ((max_width : ℤ) - (width_sc : ℤ)) 2,
         Int.fdiv ((max_height : ℤ) - (height_sc : ℤ)) 2)
      let thumb : PILImage Pix :=
        ⟨max_width, max_height, pasteData (canvasData max_width max_height) img2.data pos_insert⟩
      .ok (fun p => if p = out_fname then some thumb else fs p)

/-! ### Execution state -/

/-- The `gallery_conf` dict fields the modelled code reads or writes.
`binder_conf` stands for `check_binder_conf(gallery_conf.get('binder'))`
(binder.py is outside the modelled core; only its emptiness is tested);
`sphinx_ge_1_3` is the sphinx version test in `codestr2rst`. -/
structure GalleryConf where
  src_dir : String
  plot_gallery : Bool
  abort_on_example_error : Bool
  failing_examples : List (String × String)
  min_reported_time : ℚ
  thumbnail_size : Nat × Nat
  default_thumb_file : Option String
  line_numbers : Bool
  find_mayavi_figures : Bool
  binder_conf : List String
  sphinx_ge_1_3 : Bool

/-- Process-wide mutable state: working directory, the `sys.stdout` binding
(an abstract stream handle), `sys.argv`, the set of open matplotlib figure
numbers (`plt.get_fignums()` order), the `sys.modules` keys and whether
matplotlib rcParams are at their defaults. -/
structure ProcState where
  cwd : String
  stdout : Nat
  argv : List String
  openFigs : List Nat
  modules : List String
  mplDefaults : Bool

/-- `block_vars` (gen_rst.py line 652): `image_path` is the format-string
closure over the image path template. -/
structure BlockVars where
  execute_script : Bool
  fig_count : Nat
  image_path : Int → String
  src_file : String

/-- `sys.exc_info()` as `handle_exception` consumes it: whether the
exception is a SyntaxError, the formatted frames of
`traceback.extract_tb`/`format_list`, and `format_exception_only`. -/
structure ExcInfo where
  isSyntax : Bool
  frames : List String
  excOnly : String

/-- The outcome of `exec` on one code block (the CPython oracle): captured
stdout text, the open matplotlib figures (number and rendered bytes, in
`get_fignums` order), the mayavi scenes, and the wall-clock time — or the
exception. -/
inductive ExecOutcome where
| success (stdout : String) (figs : List (Nat × String)) (scenes : List String) (elapsed : ℚ)
| failure (exc : ExcInfo)

/-- The traceback of `handle_exception` (lines 484-494): the engine's own
frames are stripped — two for a SyntaxError raised through `ast.parse`/
`compile`, one otherwise — before formatting. -/
def formatted_exception_of (exc : ExcInfo) : String :=
  "Traceback (most recent call last):\n" ++
  String.join (if exc.isSyntax then exc.frames.drop 2 else exc.frames.drop 1) ++
  exc.excOnly

/-- `handle_exception` (gen_rst.py lines 483-508): under
`abort_on_example_error` the exception is re-raised (before the failing
example is recorded and before `execute_script` is cleared); otherwise the
failing file is recorded, the flag is cleared and the traceback rst is
returned. -/
def handle_exception (exc : ExcInfo) (src_file : String) (block_vars : BlockVars)
    (gallery_conf : GalleryConf) :
    Except PyErr (String × BlockVars × GalleryConf) :=
  let formatted_exception := formatted_exception_of exc
  let except_rst := codestr2rst formatted_exception "pytb" none gallery_conf.sphinx_ge_1_3
  if gallery_conf.abort_on_example_error then .error .reraised
  else
    .ok (except_rst,
         { block_vars with execute_script := false },
         { gallery_conf with
             failing_examples :=
               gallery_conf.failing_examples ++ [(src_file, formatted_exception)] })

/-! ### save_figures -/

/-- `save_figures` (gen_rst.py lines 263-315).  The matplotlib loop walks
`plt.get_fignums()` (here: the `figs` oracle, number plus rendered bytes;
the facecolor/edgecolor kwargs only affect the rendered bytes, which the
oracle already carries) and saves figure `fig_num` to
`image_path.format(fig_count + fig_num)`.  With `find_mayavi_figures` the
scene list is drained to contiguously numbered paths, each rescaled in
place to fit 850x999 (`scaleBytes` is the byte-level effect of that
`scale_image` call). -/
def save_figures (sep : Char) (scaleBytes : String → Nat → Nat → String)
    (image_path : Int → String) (fig_count : Nat) (gallery_conf : GalleryConf)
    (figs : List (Nat × String)) (scenes : List String) (fs : FS) :
    (String × Nat) × FS :=
  let mplSaved := figs.map fun p => (image_path ((fig_count : Int) + (p.1 : Int)), p.2)
  let fs1 := mplSaved.foldl (fun acc p => fsWrite acc p.1 p.2) fs
  let figure_list := mplSaved.map (·.1)
  let (figure_list, fs2) :=
    if gallery_conf.find_mayavi_figures then
      let last_matplotlib_fig_num := fig_count + figure_list.length
      let mayavi := (scenes.enumFrom (last_matplotlib_fig_num + 1)).map fun p =>
        (image_path (p.1 : Int), scaleBytes p.2 850 999)
      (figure_list ++ mayavi.map (·.1),
       mayavi.foldl (fun acc p => fsWrite acc p.1 p.2) fs1)
    else (figure_list, fs1)
  (figure_rst sep figure_list gallery_conf.src_dir, fs2)

/-! ### execute_code_block -/

/-- `execute_code_block` (gen_rst.py lines 511-577).  The state threading
mirrors the source exactly: the early return when `execute_script` is
false; `plt.close('all')`; saving `cwd` and `sys.stdout`; the chdir into
the example directory and the stdout tee (`teeId` is the fresh LoggingTee
handle); on success the stdout/figure harvesting; on exception
`handle_exception`; and the `finally` block that unconditionally restores
the working directory and stdout on every path.  `outcome` is the CPython
oracle for the `exec` call (the failing case also covers a compile-time
SyntaxError); the code text and shifted line numbers only feed that oracle
through `compile`/`ast.increment_lineno`.  Figures open before the block
are closed; the figures the block created stay open on return. -/
def execute_code_block (sep : Char) (teeId : Nat)
    (scaleBytes : String → Nat → Nat → String) (outcome : ExecOutcome)
    (_code_block : String) (_lineno : Nat) (block_vars : BlockVars)
    (gallery_conf : GalleryConf) (proc : ProcState) (fs : FS) :
    Except PyErr (String × ℚ) × BlockVars × GalleryConf × ProcState × FS :=
  let time_elapsed : ℚ := 0
  if block_vars.execute_script = false then
    (.ok ("", time_elapsed), block_vars, gallery_conf, proc, fs)
  else
    let cwd := proc.cwd
    let orig_stdout := proc.stdout
    let src_file := block_vars.src_file
    let proc1 : ProcState :=
      { proc with openFigs := [], cwd := pathDirname sep src_file, stdout := teeId }
    match outcome with
    | .failure exc =>
      -- sys.stdout.flush(); sys.stdout = orig_stdout; handle_exception(...);
      -- then the finally block restores cwd and stdout
      let procF := { proc1 with cwd := cwd, stdout := orig_stdout }
      match handle_exception exc src_file block_vars gallery_conf with
      | .error e => (.error e, block_vars, gallery_conf, procF, fs)
      | .ok (except_rst, bv2, gc2) =>
        let code_output := "\n" ++ except_rst ++ "\n\n\n\n"
        (.ok (code_output, time_elapsed), bv2, gc2, procF, fs)
    | .success out figs scenes elapsed =>
      let time_elapsed := elapsed
      let proc2 := { proc1 with openFigs := figs.map fun (p : Nat × String) => p.1 }
      let my_stdout := pyExpandTabs (pystrip out)
      let stdout := if my_stdout ≠ "" then CODE_OUTPUT (indentPy "    " my_stdout)
                    else ""
      let sf := save_figures sep scaleBytes block_vars.image_path
        block_vars.fig_count gallery_conf figs scenes fs
      let images_rst := sf.1.1
      let fig_num := sf.1.2
      let bv2 := { block_vars with fig_count := block_vars.fig_count + fig_num }
      let code_output := "\n" ++ images_rst ++ "\n\n" ++ stdout ++ "\n\n"
      let procF := { proc2 with cwd := cwd, stdout := orig_stdout }
      (.ok (code_output, time_elapsed), bv2, gallery_conf, procF, sf.2)

/-! ### clean_modules, notebook plumbing, generate_file_rst -/

/-- `clean_modules` (gen_rst.py lines 580-595): purge every `sys.modules`
entry whose name contains "seaborn" and reset matplotlib rcParams. -/
def clean_modules (proc : ProcState) : ProcState :=
  { proc with
      modules := proc.modules.filter fun m => ¬ containsSub m "seaborn",
      mplDefaults := true }

/-- Modelled from the spec: `replace_py_ipynb` lives in `utils.py`, which is
not among the modelled sources.  §6 pairs each example `<name>.py` with a
notebook file; the name maps the `.py` suffix to `.ipynb`. -/
def replace_py_ipynb (f : String) : String :=
  if endsWithData ".py".data f.data then
    ⟨f.data.take (f.data.length - 3) ++ ".ipynb".data⟩
  else f

/-- Modelled from the spec: `jupyter_notebook` lives in `notebook.py`, which
is not among the modelled sources.  §4.5: each text block becomes a
markdown-like cell and each code block a code cell, in block order; the
on-disk serialization is abstracted by the `nbSerialize` oracle. -/
def jupyter_notebook (script_blocks : List Block) : List (BlockLabel × String) :=
  script_blocks.map fun b => (b.label, b.content)

/-- The timing footer
`"**Total running time of the script:** ({0: .0f} minutes {1: .3f} seconds)\n\n"`;
the two float format slots are rendered with round-half-even, as CPython
does (the claims never inspect this text). -/
def fmt0f (q : ℚ) : String :=
  " " ++ natRepr (pyround q).toNat

def fmt3f (q : ℚ) : String :=
  let m := (pyround (q * 1000)).toNat
  " " ++ natRepr (m / 1000) ++ "." ++ pad3 (m % 1000)

def timingFooter (time_m time_s : ℚ) : String :=
  "**Total running time of the script:** (" ++ fmt0f time_m ++ " minutes " ++
  fmt3f time_s ++ " seconds)\n\n"

/-- `save_thumbnail` (gen_rst.py lines 395-422).  `isinstance(x, int)`
accepts Python bools (a subclass of int).  The final `scale_image` call is
modelled at the byte level through the `scaleBytes` oracle (its source
`img` is never equal to `thumb_file` here, so that call always writes);
`os.makedirs` has no counterpart because directories are not modelled. -/
def save_thumbnail (sep : Char) (scaleBytes : String → Nat → Nat → String)
    (glr_static : String) (image_path_template : Int → String)
    (src_file : String) (file_conf : List (String × PyLit))
    (gallery_conf : GalleryConf) (fs : FS) : Except PyErr Unit × FS :=
  let tnLit := (confGet file_conf "thumbnail_number").getD (.pInt 1)
  let tn? : Option Int := match tnLit with
    | .pInt n => some n
    | .pBool b => some (if b then 1 else 0)
    | _ => none
  match tn? with
  | none => (.error .typeError, fs)
  | some thumbnail_number =>
    let thumbnail_image_path := image_path_template thumbnail_number
    let thumb_dir := pathJoin sep (pathDirname sep thumbnail_image_path) "thumb"
    let base_image_name := splitextRoot (pathBasename sep src_file)
    let thumb_file := pathJoin sep thumb_dir ("sphx_glr_" ++ base_image_name ++ "_thumb.png")
    let img? : Option String :=
      if gallery_conf.failing_examples.any (fun p => p.1 = src_file) then
        some (pathJoin sep glr_static "broken_example.png")
      else if (fs thumbnail_image_path).isSome then
        some thumbnail_image_path
      else if (fs thumb_file).isNone then
        some (gallery_conf.default_thumb_file.getD (pathJoin sep glr_static "no_image.png"))
      else none
    match img? with
    | none => (.ok (), fs)
    | some img =>
      match fs img with
      | none => (.error .fileNotFound, fs)
      | some bytes =>
        (.ok (), fsWrite fs thumb_file
          (scaleBytes bytes gallery_conf.thumbnail_size.1 gallery_conf.thumbnail_size.2))

/-- The per-block loop of `generate_file_rst` (lines 663-687): code blocks
run through `execute_code_block` (consuming the next entry of the
`outcomes` oracle), get rendered with `codestr2rst` (line numbers only when
the file-local or global `line_numbers` policy asks for them) and are laid
out in notebook-like or minimal order; text blocks pass through with a
blank line.  An escaping exception (abort policy) stops the loop. -/
def processBlocks (sep : Char) (teeId : Nat)
    (scaleBytes : String → Nat → Nat → String) (outcomes : Nat → ExecOutcome)
    (file_conf : List (String × PyLit)) (is_example_notebook_like : Bool) :
    List Block → Nat → String → ℚ → BlockVars → GalleryConf → ProcState → FS →
    (Except PyErr (String × ℚ)) × BlockVars × GalleryConf × ProcState × FS
| [], _, example_rst, time_elapsed, block_vars, gallery_conf, proc, fs =>
  (.ok (example_rst, time_elapsed), block_vars, gallery_conf, proc, fs)
| b :: rest, idx, example_rst, time_elapsed, block_vars, gallery_conf, proc, fs =>
  match b.label with
  | .text =>
    processBlocks sep teeId scaleBytes outcomes file_conf is_example_notebook_like
      rest idx (example_rst ++ b.content ++ "\n\n") time_elapsed
      block_vars gallery_conf proc fs
  | .code =>
    let r := execute_code_block sep teeId scaleBytes (outcomes idx)
      b.content b.lineno block_vars gallery_conf proc fs
    match r.1 with
    | .error e => (.error e, r.2.1, r.2.2.1, r.2.2.2.1, r.2.2.2.2)
    | .ok (code_output, rtime) =>
      let time2 := time_elapsed + rtime
      let ln_flag := match confGet file_conf "line_numbers" with
        | some v => pyTruthy v
        | none => gallery_conf.line_numbers
      let linenoOpt := if ln_flag then some b.lineno else none
      let example_rst2 :=
        if is_example_notebook_like then
          example_rst ++ (codestr2rst b.content "python" linenoOpt gallery_conf.sphinx_ge_1_3 ++ "\n")
            ++ code_output
        else
          let er := example_rst ++ code_output
          let er := if containsSub code_output "sphx-glr-script-out"
                    then er ++ "\n\n|\n\n" else er
          er ++ (codestr2rst b.content "python" linenoOpt gallery_conf.sphinx_ge_1_3 ++ "\n")
      processBlocks sep teeId scaleBytes outcomes file_conf is_example_notebook_like
        rest (idx + 1) example_rst2 time2 r.2.1 r.2.2.1 r.2.2.2.1 r.2.2.2.2

/-- The per-file oracles of one `generate_file_rst` call: the CPython
parser outcome, `ast.literal_eval`, the `re.search(filename_pattern, ...)`
test, the per-code-block `exec` outcomes, the fresh LoggingTee handle,
`hashlib.md5`, the PIL byte-level scaling, the notebook serialization, the
`CODE_DOWNLOAD` template (downloads.py), `gen_binder_rst` (binder.py),
`glr_path_static()` and `os.sep`. -/
structure FileRun where
  po : ParseOutcome
  literalEval : String → Option PyLit
  filename_match : Bool
  outcomes : Nat → ExecOutcome
  teeId : Nat
  md5h : String → String
  scaleBytes : String → Nat → Nat → String
  nbSerialize : List (BlockLabel × String) → String
  code_download : String → String → String → String
  gen_binder : String → String
  glr_static : String
  sep : Char

/-- `generate_file_rst` (gen_rst.py lines 598-723).  Paths are assumed
normalized (`os.path.normpath` is the identity on them).  The md5 sidecar
is written exactly when `block_vars['execute_script']` is still true after
the loop; an exception escaping the loop (abort policy) skips the argv
restore and everything after, and an exception from `save_thumbnail`
leaves the already-written sidecar behind. -/
def generate_file_rst (fr : FileRun) (fname target_dir src_dir : String)
    (gallery_conf : GalleryConf) (proc : ProcState) (fs : FS) :
    (Except PyErr (String × ℚ)) × GalleryConf × ProcState × FS :=
  let sep := fr.sep
  let src_file := pathJoin sep src_dir fname
  let example_file := pathJoin sep target_dir fname
  match fs src_file with
  | none => (.error .fileNotFound, gallery_conf, proc, fs)
  | some content =>
    let fs1 := fsWrite fs example_file content
    match split_code_and_text_blocks fr.literalEval content fr.po with
    | .error e => (.error e, gallery_conf, proc, fs1)
    | .ok (file_conf, script_blocks) =>
      match extract_intro_and_title ((script_blocks.headD ⟨.text, "", 1⟩).content) with
      | .error e => (.error e, gallery_conf, proc, fs1)
      | .ok (intro, _title) =>
        match md5sum_is_current fr.md5h fs1 example_file with
        | .error e => (.error e, gallery_conf, proc, fs1)
        | .ok true => (.ok (intro, 0), gallery_conf, proc, fs1)
        | .ok false =>
          let image_dir := pathJoin sep target_dir "images"
          let base_image_name := splitextRoot fname
          let image_path_template : Int → String := fun n =>
            pathJoin sep image_dir ("sphx_glr_" ++ base_image_name ++ "_" ++ pad3Int n ++ ".png")
          let ref_fname := replaceAllChar (os_relpath sep example_file gallery_conf.src_dir) sep '_'
          let example_rst := "\n\n.. _sphx_glr_" ++ ref_fname ++ ":\n\n"
          let execute_script := fr.filename_match && gallery_conf.plot_gallery
          let is_example_notebook_like := script_blocks.length > 2
          let block_vars : BlockVars := ⟨execute_script, 0, image_path_template, src_file⟩
          let argv_orig := proc.argv
          let proc1 := if execute_script then { proc with argv := [src_file] } else proc
          let L := processBlocks sep fr.teeId fr.scaleBytes fr.outcomes file_conf
            is_example_notebook_like script_blocks 0 example_rst 0
            block_vars gallery_conf proc1 fs1
          match L.1 with
          | .error e => (.error e, L.2.2.1, L.2.2.2.1, L.2.2.2.2)
          | .ok (example_rst1, time_elapsed) =>
            let bv2 := L.2.1
            let gc2 := L.2.2.1
            let proc3 := clean_modules { L.2.2.2.1 with argv := argv_orig }
            let fs2 := L.2.2.2.2
            match (if bv2.execute_script
                   then (get_md5sum fr.md5h fs2 example_file).map some
                   else .ok none) with
            | .error e => (.error e, gc2, proc3, fs2)
            | .ok digestOpt =>
              let fs3 := match digestOpt with
                | some d => fsWrite fs2 (example_file ++ ".md5") d
                | none => fs2
              match save_thumbnail sep fr.scaleBytes fr.glr_static image_path_template
                src_file file_conf gc2 fs3 with
              | (.error e, fs4) => (.error e, gc2, proc3, fs4)
              | (.ok _, fs4) =>
                let time_m : ℚ := (⌊time_elapsed / 60⌋ : ℤ)
                let time_s : ℚ := time_elapsed - 60 * time_m
                let example_nb := fr.nbSerialize (jupyter_notebook script_blocks)
                let fs5 := fsWrite fs4 (replace_py_ipynb example_file) example_nb
                let example_rst2 :=
                  if time_elapsed ≥ gallery_conf.min_reported_time then
                    example_rst1 ++ timingFooter time_m time_s
                  else example_rst1
                let binder_badge_rst :=
                  if gallery_conf.binder_conf.length > 0 then fr.gen_binder fname else ""
                let example_rst3 := example_rst2 ++
                  fr.code_download fname (replace_py_ipynb fname) binder_badge_rst ++
                  SPHX_GLR_SIG
                let fs6 := fsWrite fs5
                  (pathJoin sep target_dir (base_image_name ++ ".rst")) example_rst3
                (.ok (intro, time_elapsed), gc2, proc3, fs6)

/-! ## Claims -/

/-- C8: For every invocation of `execute_code_block` — skipped, successful,
failing with recovery, or failing with the abort policy re-raising — the
returned process state has the working directory and the stdout stream of
the state before the call: the chdir and the redirection are undone on
every exit path. -/
theorem C8_execute_code_block_restores_cwd_stdout
    (sep : Char) (teeId : Nat) (scaleBytes : String → Nat → Nat → String)
    (outcome : ExecOutcome) (code_block : String) (lineno : Nat)
    (block_vars : BlockVars) (gallery_conf : GalleryConf) (proc : ProcState)
    (fs : FS) :
    (execute_code_block sep teeId scaleBytes outcome code_block lineno
        block_vars gallery_conf proc fs).2.2.2.1.cwd = proc.cwd ∧
    (execute_code_block sep teeId scaleBytes outcome code_block lineno
        block_vars gallery_conf proc fs).2.2.2.1.stdout = proc.stdout := by
  unfold execute_code_block
  by_cases h : block_vars.execute_script = false
  · simp [h]
  · simp only [h, if_false]
    cases outcome with
    | failure exc =>
      unfold handle_exception
      by_cases ha : gallery_conf.abort_on_example_error <;> simp [ha]
    | success out figs scenes elapsed => simp

/-- C5: `get_docstring_and_rest` raises (a ValueError) exactly when the
source parses as valid syntax but carries no module-level docstring; when
the source does not parse, it returns the fixed synthetic docstring with
the raw content preserved as the rest (and line number 1) instead of
failing. -/
theorem C5_get_docstring_and_rest_error_iff
    (content : String) (po : ParseOutcome) :
    (get_docstring_and_rest content po = .error .valueError ↔
      (po.ok = true ∧ po.docstring = "")) ∧
    (po.ok = false →
      get_docstring_and_rest content po = .ok (SYNTAX_ERROR_DOCSTRING, content, 1)) := by
  unfold get_docstring_and_rest
  constructor
  · by_cases hok : po.ok = false
    · simp [hok]
    · have hok2 : po.ok = true := by
        cases h : po.ok
        · exact absurd h hok
        · rfl
      simp only [hok2]
      by_cases hd : po.docstring = "" <;> simp [hd]
  · intro hok
    simp [hok]

/-- C5 witness: a concrete syntactically invalid source is substituted, not
fatal. -/
theorem C5_witness :
    get_docstring_and_rest "x(" ⟨false, "", 0⟩ =
      .ok (SYNTAX_ERROR_DOCSTRING, "x(", 1) :=
  (C5_get_docstring_and_rest_error_iff "x(" ⟨false, "", 0⟩).2 rfl

/-- C2 (code bug): a directive whose value is not a valid literal is meant
to be warned and skipped, but the warning call `logger.warning(...)` in
`extract_file_config` references a name `logger` that is never defined or
imported in `py_source_parser.py`, so the call raises NameError and parsing
of the file aborts — even directives with valid literal values are lost.
Here `ast.literal_eval` (oracle) rejects the unterminated list `[1,`. -/
theorem C2_invalid_literal_raises_NameError :
    extract_file_config
      (fun v => if v = "2" then some (.pInt 2) else none)
      "x = 1\n# sphinx_galleria_thumbnail_number = 2\n# sphinx_galleria_line_numbers = [1,\n"
      = .error .nameError := rfl

/-- The skip path (gen_rst.py lines 516-518): with `execute_script` false
the call is a no-op returning an empty output and zero elapsed time. -/
theorem execute_code_block_skip (sep : Char) (teeId : Nat)
    (scaleBytes : String → Nat → Nat → String) (outcome : ExecOutcome)
    (code_block : String) (lineno : Nat) (block_vars : BlockVars)
    (gallery_conf : GalleryConf) (proc : ProcState) (fs : FS)
    (h : block_vars.execute_script = false) :
    execute_code_block sep teeId scaleBytes outcome code_block lineno
        block_vars gallery_conf proc fs =
      (.ok ("", 0), block_vars, gallery_conf, proc, fs) := by
  unfold execute_code_block
  simp [h]

/-- Harness for the successive `execute_code_block` calls the per-file loop
makes for the code blocks of one file: runs each call on the state left by
the previous one and collects the returned `(output, time)` results. -/
def execBlockSeq (sep : Char) (teeId : Nat)
    (scaleBytes : String → Nat → Nat → String) :
    List (ExecOutcome × String × Nat) → BlockVars → GalleryConf → ProcState → FS →
    List (Except PyErr (String × ℚ)) × BlockVars × GalleryConf × ProcState × FS
| [], block_vars, gallery_conf, proc, fs => ([], block_vars, gallery_conf, proc, fs)
| (oc, code, ln) :: rest, block_vars, gallery_conf, proc, fs =>
  let r := execute_code_block sep teeId scaleBytes oc code ln
    block_vars gallery_conf proc fs
  let t := execBlockSeq sep teeId scaleBytes rest r.2.1 r.2.2.1 r.2.2.2.1 r.2.2.2.2
  (r.1 :: t.1, t.2)

/-- With `execute_script` already false, every further call in the file is
a no-op: all results are `("", 0)` and the whole state is untouched. -/
theorem execBlockSeq_skip (sep : Char) (teeId : Nat)
    (scaleBytes : String → Nat → Nat → String)
    (blocks : List (ExecOutcome × String × Nat)) (block_vars : BlockVars)
    (gallery_conf : GalleryConf) (proc : ProcState) (fs : FS)
    (h : block_vars.execute_script = false) :
    execBlockSeq sep teeId scaleBytes blocks block_vars gallery_conf proc fs =
      (blocks.map fun _ => .ok ("", 0), block_vars, gallery_conf, proc, fs) := by
  induction blocks with
  | nil => rfl
  | cons b rest ih =>
    obtain ⟨oc, code, ln⟩ := b
    show execBlockSeq sep teeId scaleBytes ((oc, code, ln) :: rest)
        block_vars gallery_conf proc fs = _
    unfold execBlockSeq
    rw [execute_code_block_skip sep teeId scaleBytes oc code ln
      block_vars gallery_conf proc fs h]
    simp only [ih]
    rfl

/-- C1: once a block raises during execution (the flag was on, the oracle
fails, abort policy off), that call returns with zero elapsed time and a
false `execute_script`; every later `execute_code_block` call of the file
then returns an empty output with zero elapsed time and the flag stays
false to the end. -/
theorem C1_failure_disables_rest_of_file (sep : Char) (teeId : Nat)
    (scaleBytes : String → Nat → Nat → String) (exc : ExcInfo)
    (code_block : String) (lineno : Nat) (block_vars : BlockVars)
    (gallery_conf : GalleryConf) (proc : ProcState) (fs : FS)
    (later : List (ExecOutcome × String × Nat))
    (hexec : block_vars.execute_script = true)
    (habort : gallery_conf.abort_on_example_error = false) :
    (execute_code_block sep teeId scaleBytes (.failure exc) code_block lineno
        block_vars gallery_conf proc fs).1 =
      .ok ("\n" ++ codestr2rst (formatted_exception_of exc) "pytb" none
             gallery_conf.sphinx_ge_1_3 ++ "\n\n\n\n", 0) ∧
    (execute_code_block sep teeId scaleBytes (.failure exc) code_block lineno
        block_vars gallery_conf proc fs).2.1.execute_script = false ∧
    (execBlockSeq sep teeId scaleBytes later
        (execute_code_block sep teeId scaleBytes (.failure exc) code_block lineno
          block_vars gallery_conf proc fs).2.1
        (execute_code_block sep teeId scaleBytes (.failure exc) code_block lineno
          block_vars gallery_conf proc fs).2.2.1
        (execute_code_block sep teeId scaleBytes (.failure exc) code_block lineno
          block_vars gallery_conf proc fs).2.2.2.1
        (execute_code_block sep teeId scaleBytes (.failure exc) code_block lineno
          block_vars gallery_conf proc fs).2.2.2.2).1 =
      later.map (fun _ => .ok ("", 0)) ∧
    (execBlockSeq sep teeId scaleBytes later
        (execute_code_block sep teeId scaleBytes (.failure exc) code_block lineno
          block_vars gallery_conf proc fs).2.1
        (execute_code_block sep teeId scaleBytes (.failure exc) code_block lineno
          block_vars gallery_conf proc fs).2.2.1
        (execute_code_block sep teeId scaleBytes (.failure exc) code_block lineno
          block_vars gallery_conf proc fs).2.2.2.1
        (execute_code_block sep teeId scaleBytes (.failure exc) code_block lineno
          block_vars gallery_conf proc fs).2.2.2.2).2.1.execute_script = false := by
  have hrun : execute_code_block sep teeId scaleBytes (.failure exc) code_block
      lineno block_vars gallery_conf proc fs =
      (.ok ("\n" ++ codestr2rst (formatted_exception_of exc) "pytb" none
              gallery_conf.sphinx_ge_1_3 ++ "\n\n\n\n", 0),
       { block_vars with execute_script := false },
       { gallery_conf with failing_examples := gallery_conf.failing_examples ++
           [(block_vars.src_file, formatted_exception_of exc)] },
       { proc with openFigs := [], cwd := proc.cwd, stdout := proc.stdout },
       fs) := by
    unfold execute_code_block handle_exception
    simp [hexec, habort]
  rw [hrun]
  rw [execBlockSeq_skip sep teeId scaleBytes later _ _ _ _ rfl]
  exact ⟨rfl, rfl, rfl, rfl⟩

/-- C1 witness: concrete failing block followed by one more block whose
oracle would succeed; the later call is still skipped. -/
theorem C1_witness :
    (execute_code_block '/' 1 (fun b _ _ => b)
        (.failure ⟨false, ["f1", "f2"], "ZeroDivisionError: division by zero\n"⟩)
        "1/0" 3
        ⟨true, 0, fun _ => "img", "/src/plot_a.py"⟩
        ⟨"/src", true, false, [], 0, (400, 280), none, false, false, [], true⟩
        ⟨"/cwd", 0, ["argv0"], [], [], true⟩
        (fun _ => none)).1 =
      .ok ("\n" ++ codestr2rst (formatted_exception_of
             ⟨false, ["f1", "f2"], "ZeroDivisionError: division by zero\n"⟩)
             "pytb" none true ++ "\n\n\n\n", 0) ∧
    (execBlockSeq '/' 1 (fun b _ _ => b)
        [(.success "out" [(1, "png1")] [] 2, "plt.plot()", 5)]
        (execute_code_block '/' 1 (fun b _ _ => b)
          (.failure ⟨false, ["f1", "f2"], "ZeroDivisionError: division by zero\n"⟩)
          "1/0" 3
          ⟨true, 0, fun _ => "img", "/src/plot_a.py"⟩
          ⟨"/src", true, false, [], 0, (400, 280), none, false, false, [], true⟩
          ⟨"/cwd", 0, ["argv0"], [], [], true⟩
          (fun _ => none)).2.1
        (execute_code_block '/' 1 (fun b _ _ => b)
          (.failure ⟨false, ["f1", "f2"], "ZeroDivisionError: division by zero\n"⟩)
          "1/0" 3
          ⟨true, 0, fun _ => "img", "/src/plot_a.py"⟩
          ⟨"/src", true, false, [], 0, (400, 280), none, false, false, [], true⟩
          ⟨"/cwd", 0, ["argv0"], [], [], true⟩
          (fun _ => none)).2.2.1
        (execute_code_block '/' 1 (fun b _ _ => b)
          (.failure ⟨false, ["f1", "f2"], "ZeroDivisionError: division by zero\n"⟩)
          "1/0" 3
          ⟨true, 0, fun _ => "img", "/src/plot_a.py"⟩
          ⟨"/src", true, false, [], 0, (400, 280), none, false, false, [], true⟩
          ⟨"/cwd", 0, ["argv0"], [], [], true⟩
          (fun _ => none)).2.2.2.1
        (execute_code_block '/' 1 (fun b _ _ => b)
          (.failure ⟨false, ["f1", "f2"], "ZeroDivisionError: division by zero\n"⟩)
          "1/0" 3
          ⟨true, 0, fun _ => "img", "/src/plot_a.py"⟩
          ⟨"/src", true, false, [], 0, (400, 280), none, false, false, [], true⟩
          ⟨"/cwd", 0, ["argv0"], [], [], true⟩
          (fun _ => none)).2.2.2.2).1 =
      [.ok ("", 0)] := by
  have h := C1_failure_disables_rest_of_file '/' 1 (fun b _ _ => b)
    ⟨false, ["f1", "f2"], "ZeroDivisionError: division by zero\n"⟩
    "1/0" 3
    ⟨true, 0, fun _ => "img", "/src/plot_a.py"⟩
    ⟨"/src", true, false, [], 0, (400, 280), none, false, false, [], true⟩
    ⟨"/cwd", 0, ["argv0"], [], [], true⟩
    (fun _ => none)
    [(.success "out" [(1, "png1")] [] 2, "plt.plot()", 5)]
    rfl rfl
  exact ⟨h.1, h.2.2.1⟩

theorem head_dropWhile_ne {p : Char → Bool} (l : List Char) (c : Char)
    (hc : p c = true) : (l.dropWhile p).head? ≠ some c := by
  intro h
  have := List.head?_dropWhile_not p l
  rw [h] at this
  simp [hc] at this

/-- C7: `figure_rst` returns the empty fragment for zero figures, the
single-image directive for one, and the horizontal list with exactly one
image entry per figure for more; the returned count is the number of
figures, and every emitted path is the relative path with the platform
separator replaced by `/` and leading slashes stripped — so it never starts
with a slash and (off posix) contains no platform separator. -/
theorem C7_figure_rst_fragment (sep : Char) (figure_list : List String)
    (sources_dir : String) :
    ((figure_rst sep figure_list sources_dir).2 = figure_list.length) ∧
    (figure_list = [] → (figure_rst sep figure_list sources_dir).1 = "") ∧
    (∀ f, figure_list = [f] →
      (figure_rst sep figure_list sources_dir).1 =
        SINGLE_IMAGE (lstripSlash (replaceAllChar (os_relpath sep f sources_dir) sep '/'))) ∧
    (figure_list.length > 1 →
      (figure_rst sep figure_list sources_dir).1 =
        HLIST_HEADER ++ String.join ((figure_list.map fun f =>
          lstripSlash (replaceAllChar (os_relpath sep f sources_dir) sep '/')).map
            HLIST_IMAGE_TEMPLATE)) ∧
    (∀ f ∈ figure_list,
      (lstripSlash (replaceAllChar (os_relpath sep f sources_dir) sep '/')).data.head?
          ≠ some '/' ∧
      (sep ≠ '/' →
        sep ∉ (lstripSlash (replaceAllChar (os_relpath sep f sources_dir) sep '/')).data)) := by
  refine ⟨?_, ?_, ?_, ?_, ?_⟩
  · unfold figure_rst
    rfl
  · intro h; subst h; rfl
  · intro f h; subst h
    unfold figure_rst
    rfl
  · intro h
    unfold figure_rst
    have h1 : ¬ ((figure_list.map fun figure_path =>
        lstripSlash (replaceAllChar (os_relpath sep figure_path sources_dir) sep '/')).length = 1) := by
      simpa using by omega
    have h2 : (figure_list.map fun figure_path =>
        lstripSlash (replaceAllChar (os_relpath sep figure_path sources_dir) sep '/')).length > 1 := by
      simpa using h
    simp only [h1, if_false, h2, if_true]
  · intro f _
    constructor
    · unfold lstripSlash
      exact head_dropWhile_ne _ '/' (by simp)
    · intro hsep hmem
      unfold lstripSlash at hmem
      have hmem2 := (List.dropWhile_sublist
        (l := (replaceAllChar (os_relpath sep f sources_dir) sep '/').data)
        (p := fun c => c = '/')).subset hmem
      unfold replaceAllChar at hmem2
      simp only [List.mem_map] at hmem2
      obtain ⟨d, _, hd⟩ := hmem2
      by_cases hds : d = sep
      · rw [hds] at hd; simp at hd; exact hsep hd.symm
      · simp [hds] at hd

/-- C7 witness: a Windows-style separator; the emitted path is relative,
forward-slashed and unprefixed. -/
theorem C7_witness :
    (figure_rst '\\' ["C:\\src\\images\\im.png"] "C:\\src").1 =
      SINGLE_IMAGE "images/im.png" ∧
    (figure_rst '\\' ["C:\\src\\images\\im.png"] "C:\\src").2 = 1 := by
  have h := C7_figure_rst_fragment '\\' ["C:\\src\\images\\im.png"] "C:\\src"
  exact ⟨h.2.2.1 "C:\\src\\images\\im.png" rfl, h.1⟩

/-- C9: with identical source and destination, `scale_image` is a no-op on
any image already inside the target bounds (in particular one of exactly
the target size), and a second application with the same bounds after any
first application changes nothing: a non-trivial first pass stores the
fixed-size canvas, which the early-return test then recognizes as fitting.
-/
theorem C9_scale_image_noop_and_idempotent {Pix : Type}
    (resizeData : PILImage Pix → Nat → Nat → Pix)
    (canvasData : Nat → Nat → Pix) (pasteData : Pix → Pix → ℤ × ℤ → Pix)
    (fs : String → Option (PILImage Pix)) (in_fname : String)
    (max_width max_height : Nat) (img : PILImage Pix)
    (himg : fs in_fname = some img) (hw : 1 ≤ img.width) (hh : 1 ≤ img.height)
    (hmw : 1 ≤ max_width) (_hmh : 1 ≤ max_height) :
    (img.width ≤ max_width → img.height ≤ max_height →
      scale_image resizeData canvasData pasteData fs in_fname in_fname
        max_width max_height = .ok fs) ∧
    (∀ fs2, scale_image resizeData canvasData pasteData fs in_fname in_fname
        max_width max_height = .ok fs2 →
      scale_image resizeData canvasData pasteData fs2 in_fname in_fname
        max_width max_height = .ok fs2) := by
  have hwq : (0 : ℚ) < (img.width : ℚ) := by
    have : (0 : ℚ) < (1 : ℚ) := by norm_num
    calc (0 : ℚ) < 1 := this
      _ ≤ (img.width : ℚ) := by exact_mod_cast hw
  have hhq : (0 : ℚ) < (img.height : ℚ) := by
    have : (0 : ℚ) < (1 : ℚ) := by norm_num
    calc (0 : ℚ) < 1 := this
      _ ≤ (img.height : ℚ) := by exact_mod_cast hh
  constructor
  · intro hfw hfh
    unfold scale_image
    rw [himg]
    have hscale : 1 ≤ (if (img.height : ℚ) * ((max_width : ℚ) / (img.width : ℚ))
        ≤ (max_height : ℚ) then (max_width : ℚ) / (img.width : ℚ)
        else (max_height : ℚ) / (img.height : ℚ)) := by
      split
      · rw [one_le_div hwq]; exact_mod_cast hfw
      · rw [one_le_div hhq]; exact_mod_cast hfh
    simp only []
    rw [if_pos ⟨hscale, by trivial⟩]
  · intro fs2 heq
    unfold scale_image at heq
    rw [himg] at heq
    simp only [] at heq
    by_cases hc : 1 ≤ (if (img.height : ℚ) * ((max_width : ℚ) / (img.width : ℚ))
        ≤ (max_height : ℚ) then (max_width : ℚ) / (img.width : ℚ)
        else (max_height : ℚ) / (img.height : ℚ))
    · rw [if_pos ⟨hc, by trivial⟩] at heq
      injection heq with heq
      subst heq
      unfold scale_image
      rw [himg]
      simp only []
      rw [if_pos ⟨hc, by trivial⟩]
    · rw [if_neg (fun hand => hc hand.1)] at heq
      injection heq with heq
      subst heq
      unfold scale_image
      simp only [if_pos rfl, if_true]
      have hmwq : (0 : ℚ) < (max_width : ℚ) := by
        have h01 : (0 : ℚ) < (1 : ℚ) := by norm_num
        calc (0 : ℚ) < 1 := h01
          _ ≤ (max_width : ℚ) := by exact_mod_cast hmw
      have hdiv : (max_width : ℚ) / (max_width : ℚ) = 1 := div_self (ne_of_gt hmwq)
      rw [hdiv]
      norm_num

/-- C9 witness: an 8x5 image in 10x10 bounds with equal paths is untouched,
and a 20x20 image shrunk once into 10x10 bounds is not changed by a second
pass. -/
theorem C9_witness :
    (scale_image (fun _ _ _ => ()) (fun _ _ => ()) (fun _ _ _ => ())
        (fun p => if p = "a.png" then some ⟨8, 5, ()⟩ else none)
        "a.png" "a.png" 10 10 =
      .ok (fun p => if p = "a.png" then some ⟨8, 5, ()⟩ else none)) ∧
    (∀ fs2, scale_image (fun _ _ _ => ()) (fun _ _ => ()) (fun _ _ _ => ())
        (fun p => if p = "b.png" then some ⟨20, 20, ()⟩ else none)
        "b.png" "b.png" 10 10 = .ok fs2 →
      scale_image (fun _ _ _ => ()) (fun _ _ => ()) (fun _ _ _ => ())
        fs2 "b.png" "b.png" 10 10 = .ok fs2) := by
  constructor
  · exact (C9_scale_image_noop_and_idempotent (fun _ _ _ => ()) (fun _ _ => ())
      (fun _ _ _ => ()) (fun p => if p = "a.png" then some ⟨8, 5, ()⟩ else none)
      "a.png" 10 10 ⟨8, 5, ()⟩ rfl (by decide) (by decide) (by decide) (by decide)).1
      (by decide) (by decide)
  · exact (C9_scale_image_noop_and_idempotent (fun _ _ _ => ()) (fun _ _ => ())
      (fun _ _ _ => ()) (fun p => if p = "b.png" then some ⟨20, 20, ()⟩ else none)
      "b.png" 10 10 ⟨20, 20, ()⟩ rfl (by decide) (by decide) (by decide) (by decide)).2

theorem splitNlData_mem_no_nl (d : List Char) :
    ∀ l ∈ splitNlData d, '\n' ∉ l := by
  induction d with
  | nil => intro l hl; simp [splitNlData] at hl; simp [hl]
  | cons c rest ih =>
    intro l hl
    simp only [splitNlData] at hl
    by_cases hc : c = '\n'
    · simp only [hc, if_true] at hl
      rcases List.mem_cons.mp hl with rfl | hl2
      · simp
      · exact ih l hl2
    · simp only [hc, if_false] at hl
      rcases hr : splitNlData rest with _ | ⟨a, b⟩
      · exact absurd hr (splitNlData_ne_nil rest)
      · rw [hr] at hl
        rcases List.mem_cons.mp hl with rfl | hl2
        · intro hmem
          rcases List.mem_cons.mp hmem with h1 | h2
          · exact hc h1.symm
          · exact ih a (by rw [hr]; simp) h2
        · exact ih l (by rw [hr]; simp [hl2])

theorem pySplitLines_mem_no_nl (s : String) :
    ∀ l ∈ pySplitLines s, '\n' ∉ l.data := by
  intro l hl
  unfold pySplitLines at hl
  obtain ⟨d, hd, rfl⟩ := List.mem_map.mp hl
  exact splitNlData_mem_no_nl s.data d hd

theorem takeCommentRun_spec (comments : List String)
    (hcs : ∀ c ∈ comments, is_comment_line c = true) :
    takeCommentRun (comments ++ [""]) = (comments, [""]) := by
  induction comments with
  | nil => rfl
  | cons c rest ih =>
    have hc := hcs c (by simp)
    simp only [List.cons_append, takeCommentRun]
    rw [if_pos ⟨hc, by simp⟩]
    simp only [List.append_eq]
    rw [ih (fun x hx => hcs x (by simp [hx]))]

theorem findHeaderMatch_spec (code : List String) (header : String)
    (tail : List String) (hcode : ∀ l ∈ code, is_header_line l = false)
    (hh : is_header_line header = true) (ht : tail ≠ []) :
    findHeaderMatch (code ++ header :: tail) =
      some ⟨code, header, (takeCommentRun tail).1, (takeCommentRun tail).2⟩ := by
  induction code with
  | nil =>
    simp only [List.nil_append, findHeaderMatch]
    rw [if_pos ⟨hh, by simp [ht]⟩]
  | cons l rest ih =>
    have hl := hcode l (by simp)
    simp only [List.cons_append, findHeaderMatch]
    rw [if_neg (fun hand => by rw [hl] at hand; exact absurd hand.1 (by simp))]
    simp only [List.append_eq]
    rw [ih (fun x hx => hcode x (by simp [hx]))]

/-- C4: for a syntactically valid source whose line split is a docstring
part, then code lines (none of them a section header, with some
non-whitespace), then one trailing 20+-hash header with attached comment
lines and the final empty line of the trailing newline — and whose
directives all evaluate — `split_code_and_text_blocks` yields exactly the
docstring text block at line 1, one code block, and one text block for the
header comments when their de-hashed, dedented body is non-whitespace
(none otherwise); the recorded start lines are non-decreasing. -/
theorem C4_single_header_split (literalEval : String → Option PyLit)
    (content : String) (po : ParseOutcome) (docLines codeLines : List String)
    (headerLine : String) (commentLines : List String)
    (conf : List (String × PyLit))
    (hok : po.ok = true) (hdoc : po.docstring ≠ "")
    (hsplit : pySplitLines content =
      docLines ++ (codeLines ++ headerLine :: (commentLines ++ [""])))
    (hds : po.dsLines = docLines.length)
    (hhdr : is_header_line headerLine = true)
    (hcode : ∀ l ∈ codeLines, is_header_line l = false)
    (hcomm : ∀ c ∈ commentLines, is_comment_line c = true)
    (hcodeNonWS : stripTruthy (joinTermLines codeLines) = true)
    (hconf : extract_file_config literalEval
      (joinNl (codeLines ++ headerLine :: (commentLines ++ [""]))) = .ok conf) :
    (split_code_and_text_blocks literalEval content po = .ok (conf,
      ⟨.text, po.docstring, 1⟩ ::
      ⟨.code, joinTermLines codeLines, po.dsLines + 1⟩ ::
      (if stripTruthy (textBlockContent commentLines) then
        [⟨.text, textBlockContent commentLines,
          po.dsLines + 1 + codeLines.length + 1⟩]
       else []))) ∧
    (∀ blocks, split_code_and_text_blocks literalEval content po
        = .ok (conf, blocks) →
      (blocks.map Block.label =
        if stripTruthy (textBlockContent commentLines) then
          [.text, .code, .text] else [.text, .code]) ∧
      blocks.head? = some ⟨.text, po.docstring, 1⟩ ∧
      (blocks.map Block.lineno).Chain' (· ≤ ·)) := by
  have hrest_ne : codeLines ++ headerLine :: (commentLines ++ [""]) ≠ [] := by
    simp
  have hrest_nl : ∀ l ∈ codeLines ++ headerLine :: (commentLines ++ [""]),
      '\n' ∉ l.data := by
    intro l hl
    exact pySplitLines_mem_no_nl content l (by rw [hsplit]; simp [hl])
  have hmain : split_code_and_text_blocks literalEval content po = .ok (conf,
      ⟨.text, po.docstring, 1⟩ ::
      ⟨.code, joinTermLines codeLines, po.dsLines + 1⟩ ::
      (if stripTruthy (textBlockContent commentLines) then
        [⟨.text, textBlockContent commentLines,
          po.dsLines + 1 + codeLines.length + 1⟩]
       else [])) := by
    unfold split_code_and_text_blocks get_docstring_and_rest
    rw [hok]
    simp only [Bool.true_eq_false, if_false, hdoc, hsplit, hds, List.drop_left]
    rw [hconf]
    have hlines : pySplitLines (joinNl (codeLines ++ headerLine :: (commentLines ++ [""])))
        = codeLines ++ headerLine :: (commentLines ++ [""]) :=
      pySplitLines_joinNl _ hrest_ne hrest_nl
    rw [hlines]
    rw [split_loop_some _ _ ⟨codeLines, headerLine, commentLines, [""]⟩
      (by rw [findHeaderMatch_spec codeLines headerLine (commentLines ++ [""])
                hcode hhdr (by simp),
              takeCommentRun_spec commentLines hcomm])]
    rw [split_loop_none [""] _ rfl]
    simp only [hcodeNonWS, if_true]
    have hjoin : stripTruthy (joinNl [""]) = false := rfl
    rw [hjoin]
    simp
  refine ⟨hmain, ?_⟩
  intro blocks hblocks
  rw [hmain] at hblocks
  injection hblocks with hblocks
  have hb2 : blocks = ⟨.text, po.docstring, 1⟩ ::
      ⟨.code, joinTermLines codeLines, po.dsLines + 1⟩ ::
      (if stripTruthy (textBlockContent commentLines) then
        [⟨.text, textBlockContent commentLines,
          po.dsLines + 1 + codeLines.length + 1⟩]
       else []) := by
    have := congrArg Prod.snd hblocks
    exact this.symm
  subst hb2
  by_cases htb : stripTruthy (textBlockContent commentLines) = true
  · simp only [htb, if_true]
    refine ⟨rfl, rfl, ?_⟩
    simp only [List.map_cons, List.map_nil]
    refine List.Chain'.cons (by omega) (List.Chain'.cons (by omega) ?_)
    simp
  · simp only [htb, if_false]
    refine ⟨rfl, rfl, ?_⟩
    simp only [List.map_cons, List.map_nil]
    exact List.Chain'.cons (by omega) (by simp)

/-- C4 witness: a concrete source — docstring, one code line, a trailing
header with one attached comment — splits into text, code, text. -/
theorem C4_witness :
    split_code_and_text_blocks (fun _ => none)
      "\"\"\"Title\"\"\"\nx = 1\n####################\n# Section two\n"
      ⟨true, "Title", 1⟩ =
    .ok ([], [⟨.text, "Title", 1⟩, ⟨.code, "x = 1\n", 2⟩,
              ⟨.text, "Section two\n", 4⟩]) := by
  have h := (C4_single_header_split (fun _ => none)
    "\"\"\"Title\"\"\"\nx = 1\n####################\n# Section two\n"
    ⟨true, "Title", 1⟩ ["\"\"\"Title\"\"\""] ["x = 1"] "####################"
    ["# Section two"] []
    rfl (by decide) rfl rfl (by decide) (by decide) (by decide) (by decide) rfl).1
  exact h

theorem split_loop_fuel_content_nonWS (fuel : Nat) :
    ∀ (lines : List String) (n : Nat) (b : Block),
      b ∈ split_loop_fuel fuel lines n → stripTruthy b.content = true := by
  induction fuel with
  | zero => intro lines n b hb; simp [split_loop_fuel] at hb
  | succ f ih =>
    intro lines n b hb
    rw [split_loop_fuel_succ] at hb
    rcases hm : findHeaderMatch lines with _ | m <;> rw [hm] at hb
    · by_cases hg : stripTruthy (joinNl lines) = true
      · rw [if_pos hg] at hb
        rcases List.mem_singleton.mp hb with rfl
        exact hg
      · rw [if_neg hg] at hb
        simp at hb
    · simp only [List.mem_append] at hb
      rcases hb with (hb | hb) | hb
      · by_cases hg : stripTruthy (joinTermLines m.codePart) = true
        · rw [if_pos hg] at hb
          rcases List.mem_singleton.mp hb with rfl
          exact hg
        · rw [if_neg hg] at hb; simp at hb
      · by_cases hg : stripTruthy (textBlockContent m.textLines) = true
        · rw [if_pos hg] at hb
          rcases List.mem_singleton.mp hb with rfl
          exact hg
        · rw [if_neg hg] at hb; simp at hb
      · exact ih m.restLines _ b hb

theorem split_loop_content_nonWS (lines : List String) (n : Nat) (b : Block)
    (hb : b ∈ split_loop lines n) : stripTruthy b.content = true :=
  split_loop_fuel_content_nonWS (lines.length + 1) lines n b hb

/-- C10 counterexample: a whitespace-only module docstring (`"""   """`)
passes the `if not docstring` check, so the first returned block carries
whitespace-only content — the claim that every block contains a
non-whitespace character fails at the docstring block. -/
theorem C10_counterexample :
    split_code_and_text_blocks (fun _ => none) "\"\"\"   \"\"\"\n"
      ⟨true, "   ", 1⟩ = .ok ([], [⟨.text, "   ", 1⟩]) ∧
    hasNonWS "   " = false := by
  constructor
  · rfl
  · decide

/-- C10 (amended): every block after the first has content with at least
one non-whitespace character; the first block is always a text block at
line 1 whose content is the docstring (the synthetic placeholder on a
syntax error) — a non-empty but possibly whitespace-only string. -/
theorem C10_amended_blocks_invariant (literalEval : String → Option PyLit)
    (content : String) (po : ParseOutcome) (conf : List (String × PyLit))
    (blocks : List Block)
    (h : split_code_and_text_blocks literalEval content po = .ok (conf, blocks)) :
    (∀ b ∈ blocks.tail, stripTruthy b.content = true) ∧
    blocks.head? = some ⟨.text,
      (if po.ok then po.docstring else SYNTAX_ERROR_DOCSTRING), 1⟩ ∧
    (if po.ok then po.docstring else SYNTAX_ERROR_DOCSTRING) ≠ "" := by
  unfold split_code_and_text_blocks get_docstring_and_rest at h
  by_cases hok : po.ok = false
  · rw [hok] at h
    simp only [if_pos rfl, if_true] at h
    rcases hef : extract_file_config literalEval content with e | fc <;> rw [hef] at h
    · cases h
    · injection h with h
      have hb : blocks = ⟨.text, SYNTAX_ERROR_DOCSTRING, 1⟩ ::
          split_loop (pySplitLines content) 1 := (congrArg Prod.snd h).symm
      subst hb
      refine ⟨?_, by simp [hok], by rw [if_neg (by simp [hok])]; decide⟩
      intro b hb
      exact split_loop_content_nonWS _ _ b hb
  · have hok2 : po.ok = true := by
      cases hx : po.ok
      · exact absurd hx hok
      · rfl
    rw [hok2] at h
    simp only [Bool.true_eq_false, if_false] at h
    by_cases hd : po.docstring = ""
    · rw [if_pos hd] at h; cases h
    · rw [if_neg hd] at h
      dsimp only at h
      rcases hef : extract_file_config literalEval
          (joinNl ((pySplitLines content).drop po.dsLines)) with e | fc <;>
        rw [hef] at h
      · cases h
      · injection h with h
        have hb : blocks = ⟨.text, po.docstring, 1⟩ ::
            split_loop (pySplitLines (joinNl ((pySplitLines content).drop po.dsLines)))
              (po.dsLines + 1) := (congrArg Prod.snd h).symm
        subst hb
        refine ⟨?_, by simp [hok2], by rw [if_pos hok2]; exact hd⟩
        intro b hbm
        exact split_loop_content_nonWS _ _ b hbm

/-- C10 witness for the amended invariant, at the concrete three-block
source. -/
theorem C10_amended_witness :
    (∀ b ∈ ([⟨.text, "Title", 1⟩, ⟨.code, "x = 1\n", 2⟩,
              ⟨.text, "Section two\n", 4⟩] : List Block).tail,
        stripTruthy b.content = true) ∧
    ([⟨.text, "Title", 1⟩, ⟨.code, "x = 1\n", 2⟩,
      ⟨.text, "Section two\n", 4⟩] : List Block).head? =
        some ⟨.text, "Title", 1⟩ ∧
    ("Title" : String) ≠ "" := by
  have h := C10_amended_blocks_invariant (fun _ => none)
    "\"\"\"Title\"\"\"\nx = 1\n####################\n# Section two\n"
    ⟨true, "Title", 1⟩ []
    [⟨.text, "Title", 1⟩, ⟨.code, "x = 1\n", 2⟩, ⟨.text, "Section two\n", 4⟩]
    rfl
  exact h

/-- One `save_figures` call with matplotlib default numbering (after
`plt.close('all')` the open figures are numbered `1..k`): the saved paths
are `image_path` at the consecutive indices `fig_count+1 .. fig_count+k`
(continuing with the mayavi scenes when enabled), in order, and exactly the
number of saved figures is returned. -/
theorem save_figures_spec (sep : Char) (scaleBytes : String → Nat → Nat → String)
    (image_path : Int → String) (fig_count : Nat) (gallery_conf : GalleryConf)
    (figs : List (Nat × String)) (scenes : List String) (fs : FS)
    (hnums : figs.map Prod.fst = List.range' 1 figs.length) :
    (save_figures sep scaleBytes image_path fig_count gallery_conf figs scenes fs).1.2 =
      figs.length + (if gallery_conf.find_mayavi_figures then scenes.length else 0) ∧
    ∃ pb : List (String × String),
      (save_figures sep scaleBytes image_path fig_count gallery_conf figs scenes fs).2 =
        pb.foldl (fun acc p => fsWrite acc p.1 p.2) fs ∧
      pb.map Prod.fst = (List.range' (fig_count + 1)
        (figs.length + (if gallery_conf.find_mayavi_figures then scenes.length else 0))).map
          (fun n : Nat => image_path (n : Int)) := by
  have hmpl : (figs.map fun p => (image_path ((fig_count : Int) + (p.1 : Int)), p.2)).map
      Prod.fst = (List.range' (fig_count + 1) figs.length).map (fun n : Nat => image_path (n : Int)) := by
    rw [List.map_map]
    have h1 : (Prod.fst ∘ fun p : Nat × String =>
        (image_path ((fig_count : Int) + (p.1 : Int)), p.2)) =
        (fun n : Nat => image_path ((fig_count : Int) + (n : Int))) ∘ Prod.fst := rfl
    rw [h1, ← List.map_map, hnums]
    have h2 : (List.range' 1 figs.length).map
        (fun n : Nat => image_path ((fig_count : Int) + (n : Int))) =
        ((List.range' 1 figs.length).map (fun n => fig_count + n)).map
          (fun n : Nat => image_path (n : Int)) := by
      rw [List.map_map]
      apply List.map_congr_left
      intro a _
      show image_path _ = image_path _
      rfl
    rw [h2]
    congr 1
    simp
  unfold save_figures
  by_cases hmay : gallery_conf.find_mayavi_figures
  · simp only [hmay, if_true]
    constructor
    · unfold figure_rst
      simp
    · refine ⟨(figs.map fun p => (image_path ((fig_count : Int) + (p.1 : Int)), p.2)) ++
        ((scenes.enumFrom (fig_count +
            (figs.map fun p => (image_path ((fig_count : Int) + (p.1 : Int)), p.2)).length + 1)).map
          fun p => (image_path (p.1 : Int), scaleBytes p.2 850 999)), ?_, ?_⟩
      · rw [List.foldl_append]
        simp
      · rw [List.map_append, hmpl]
        have hlen : (figs.map fun p =>
            (image_path ((fig_count : Int) + (p.1 : Int)), p.2)).length = figs.length := by
          simp
        rw [hlen]
        have hmv : ((scenes.enumFrom (fig_count + figs.length + 1)).map
            (fun p => (image_path (p.1 : Int), scaleBytes p.2 850 999))).map Prod.fst =
            (List.range' (fig_count + figs.length + 1) scenes.length).map
              (fun n : Nat => image_path (n : Int)) := by
          rw [List.map_map]
          have h1 : (Prod.fst ∘ fun p : Nat × String =>
              (image_path ((p.1 : Nat) : Int), scaleBytes p.2 850 999)) =
              (fun n : Nat => image_path (n : Int)) ∘ Prod.fst := rfl
          rw [h1, ← List.map_map, List.enumFrom_map_fst]
        rw [hmv, ← List.map_append]
        congr 1
        have := List.range'_append (fig_count + 1) figs.length scenes.length 1
        simp only [one_mul] at this
        rw [show fig_count + 1 + figs.length = fig_count + figs.length + 1 by omega] at this
        rw [this]
        congr 1
        omega
  · have hmay2 : gallery_conf.find_mayavi_figures = false := by
      cases hx : gallery_conf.find_mayavi_figures
      · rfl
      · exact absurd hx hmay
    rw [hmay2]
    simp only [Bool.false_eq_true, if_false]
    constructor
    · unfold figure_rst
      simp
    · refine ⟨figs.map fun p => (image_path ((fig_count : Int) + (p.1 : Int)), p.2), rfl, ?_⟩
      rw [hmpl]
      congr 2

theorem pad3Int_natCast (n : Nat) : pad3Int (n : Int) = pad3 n := by
  unfold pad3Int
  rw [if_neg (by omega : ¬ ((n : Int) < 0))]
  simp

theorem imgTemplate_inj (pre suf : String) (a b : Nat)
    (h : pre ++ pad3Int (a : Int) ++ suf = pre ++ pad3Int (b : Int) ++ suf) :
    a = b := by
  rw [pad3Int_natCast, pad3Int_natCast] at h
  have hd := congrArg String.data h
  simp only [String.data_append] at hd
  have h1 : (pad3 a).data ++ suf.data = (pad3 b).data ++ suf.data := by
    rw [List.append_assoc, List.append_assoc] at hd
    exact List.append_cancel_left hd
  have h2 : (pad3 a).data = (pad3 b).data := List.append_cancel_right h1
  exact pad3_injective (String.ext h2)

/-- The oracle outcome of a block that ran to completion with matplotlib
default figure numbering: after `plt.close('all')`, figures created with
default numbers are `1..k`, which is what `plt.get_fignums()` then
reports. -/
def successDefaultNumbering : ExecOutcome × String × Nat → Prop
| (.success _ figs _ _, _, _) => figs.map Prod.fst = List.range' 1 figs.length
| _ => False

/-- Number of figure files one block produces (matplotlib figures plus, if
enabled, mayavi scenes). -/
def blockFigTotal (mayavi : Bool) : ExecOutcome × String × Nat → Nat
| (.success _ figs scenes _, _, _) => figs.length + (if mayavi then scenes.length else 0)
| _ => 0

theorem execBlockSeq_success_numbering (sep : Char) (teeId : Nat)
    (scaleBytes : String → Nat → Nat → String) :
    ∀ (blocks : List (ExecOutcome × String × Nat)) (block_vars : BlockVars)
      (gallery_conf : GalleryConf) (proc : ProcState) (fs : FS),
      block_vars.execute_script = true →
      (∀ e ∈ blocks, successDefaultNumbering e) →
      (execBlockSeq sep teeId scaleBytes blocks block_vars gallery_conf proc fs).2.1 =
        { block_vars with fig_count := block_vars.fig_count +
            (blocks.map (blockFigTotal gallery_conf.find_mayavi_figures)).sum } ∧
      (execBlockSeq sep teeId scaleBytes blocks block_vars gallery_conf proc fs).2.2.1 =
        gallery_conf ∧
      ∃ pb : List (String × String),
        (execBlockSeq sep teeId scaleBytes blocks block_vars gallery_conf proc fs).2.2.2.2 =
          pb.foldl (fun acc p => fsWrite acc p.1 p.2) fs ∧
        pb.map Prod.fst = (List.range' (block_vars.fig_count + 1)
            ((blocks.map (blockFigTotal gallery_conf.find_mayavi_figures)).sum)).map
          (fun n : Nat => block_vars.image_path (n : Int)) := by
  intro blocks
  induction blocks with
  | nil =>
    intro bv gc proc fs hexec _
    refine ⟨?_, rfl, [], rfl, ?_⟩
    · show bv = _
      simp
    · simp
  | cons e rest ih =>
    intro bv gc proc fs hexec hall
    obtain ⟨oc, code, ln⟩ := e
    have hsucc := hall (oc, code, ln) (by simp)
    cases oc with
    | failure exc => exact absurd hsucc (by simp [successDefaultNumbering])
    | success out figs scenes t =>
      have hnums : figs.map Prod.fst = List.range' 1 figs.length := hsucc
      have hspec := save_figures_spec sep scaleBytes bv.image_path bv.fig_count
        gc figs scenes fs hnums
      have h21 : (execute_code_block sep teeId scaleBytes (.success out figs scenes t)
          code ln bv gc proc fs).2.1 =
          { bv with fig_count := bv.fig_count +
              (save_figures sep scaleBytes bv.image_path bv.fig_count gc figs scenes fs).1.2 } := by
        unfold execute_code_block
        simp [hexec]
      have h221 : (execute_code_block sep teeId scaleBytes (.success out figs scenes t)
          code ln bv gc proc fs).2.2.1 = gc := by
        unfold execute_code_block
        simp [hexec]
      have hfs : (execute_code_block sep teeId scaleBytes (.success out figs scenes t)
          code ln bv gc proc fs).2.2.2.2 =
          (save_figures sep scaleBytes bv.image_path bv.fig_count gc figs scenes fs).2 := by
        unfold execute_code_block
        simp [hexec]
      obtain ⟨hcnt, pb1, hfs1, hpb1⟩ := hspec
      have hbvflag : ({ bv with fig_count := bv.fig_count +
          (save_figures sep scaleBytes bv.image_path bv.fig_count gc figs scenes fs).1.2 }
            : BlockVars).execute_script = true := hexec
      have hih := ih ({ bv with fig_count := bv.fig_count +
          (save_figures sep scaleBytes bv.image_path bv.fig_count gc figs scenes fs).1.2 })
        gc (execute_code_block sep teeId scaleBytes (.success out figs scenes t)
             code ln bv gc proc fs).2.2.2.1
        ((save_figures sep scaleBytes bv.image_path bv.fig_count gc figs scenes fs).2)
        hbvflag (fun x hx => hall x (by simp [hx]))
      obtain ⟨hbv2, hgc2, pb2, hfs2, hpb2⟩ := hih
      refine ⟨?_, ?_, ⟨pb1 ++ pb2, ?_, ?_⟩⟩
      · show (execBlockSeq sep teeId scaleBytes rest
            (execute_code_block sep teeId scaleBytes (.success out figs scenes t)
              code ln bv gc proc fs).2.1
            (execute_code_block sep teeId scaleBytes (.success out figs scenes t)
              code ln bv gc proc fs).2.2.1
            (execute_code_block sep teeId scaleBytes (.success out figs scenes t)
              code ln bv gc proc fs).2.2.2.1
            (execute_code_block sep teeId scaleBytes (.success out figs scenes t)
              code ln bv gc proc fs).2.2.2.2).2.1 = _
        rw [h21, h221, hfs]
        rw [hbv2, hcnt]
        simp only [List.map_cons, List.sum_cons, blockFigTotal]
        congr 1
        omega
      · show (execBlockSeq sep teeId scaleBytes rest
            (execute_code_block sep teeId scaleBytes (.success out figs scenes t)
              code ln bv gc proc fs).2.1
            (execute_code_block sep teeId scaleBytes (.success out figs scenes t)
              code ln bv gc proc fs).2.2.1
            (execute_code_block sep teeId scaleBytes (.success out figs scenes t)
              code ln bv gc proc fs).2.2.2.1
            (execute_code_block sep teeId scaleBytes (.success out figs scenes t)
              code ln bv gc proc fs).2.2.2.2).2.2.1 = _
        rw [h21, h221, hfs]
        exact hgc2
      · show (execBlockSeq sep teeId scaleBytes rest
            (execute_code_block sep teeId scaleBytes (.success out figs scenes t)
              code ln bv gc proc fs).2.1
            (execute_code_block sep teeId scaleBytes (.success out figs scenes t)
              code ln bv gc proc fs).2.2.1
            (execute_code_block sep teeId scaleBytes (.success out figs scenes t)
              code ln bv gc proc fs).2.2.2.1
            (execute_code_block sep teeId scaleBytes (.success out figs scenes t)
              code ln bv gc proc fs).2.2.2.2).2.2.2.2 = _
        rw [h21, h221, hfs]
        rw [hfs2, hfs1, List.foldl_append]
      · rw [List.map_append, hpb1]
        have hpb2x : pb2.map Prod.fst =
            (List.range' (bv.fig_count +
              (save_figures sep scaleBytes bv.image_path bv.fig_count gc figs scenes fs).1.2 + 1)
              ((rest.map (blockFigTotal gc.find_mayavi_figures)).sum)).map
              (fun n : Nat => bv.image_path (n : Int)) := hpb2
        rw [hpb2x, hcnt]
        rw [← List.map_append]
        congr 1
        have hap := List.range'_append (bv.fig_count + 1)
          (figs.length + (if gc.find_mayavi_figures then scenes.length else 0))
          ((rest.map (blockFigTotal gc.find_mayavi_figures)).sum) 1
        simp only [one_mul] at hap
        rw [show bv.fig_count + 1 +
            (figs.length + (if gc.find_mayavi_figures then scenes.length else 0)) =
            bv.fig_count + (figs.length +
              (if gc.find_mayavi_figures then scenes.length else 0)) + 1 by omega] at hap
        rw [hap]
        simp only [List.map_cons, List.sum_cons, blockFigTotal]
        congr 1
        omega

/-- C6: across the code blocks of one file (each run to completion with
matplotlib's default numbering after `plt.close('all')`), the figure paths
produced by the successive `save_figures` calls are the zero-padded
template at the consecutive indices `fig_count+1, fig_count+2, ...`:
`execute_code_block` adds each block's saved count onto the running
`fig_count`, so the indices across the whole file form
`range' (fig_count+1) S` — strictly increasing with no number skipped —
and the path strings are pairwise distinct. -/
theorem C6_figure_numbering_contiguous (sep : Char) (teeId : Nat)
    (scaleBytes : String → Nat → Nat → String)
    (blocks : List (ExecOutcome × String × Nat)) (block_vars : BlockVars)
    (gallery_conf : GalleryConf) (proc : ProcState) (fs : FS) (pre : String)
    (hpath : block_vars.image_path = fun n => pre ++ pad3Int n ++ ".png")
    (hexec : block_vars.execute_script = true)
    (hall : ∀ e ∈ blocks, successDefaultNumbering e) :
    (execBlockSeq sep teeId scaleBytes blocks block_vars gallery_conf proc fs).2.1.fig_count =
      block_vars.fig_count +
        (blocks.map (blockFigTotal gallery_conf.find_mayavi_figures)).sum ∧
    (List.range' (block_vars.fig_count + 1)
      ((blocks.map (blockFigTotal gallery_conf.find_mayavi_figures)).sum)).Pairwise (· < ·) ∧
    ∃ pb : List (String × String),
      (execBlockSeq sep teeId scaleBytes blocks block_vars gallery_conf proc fs).2.2.2.2 =
        pb.foldl (fun acc p => fsWrite acc p.1 p.2) fs ∧
      pb.map Prod.fst = (List.range' (block_vars.fig_count + 1)
          ((blocks.map (blockFigTotal gallery_conf.find_mayavi_figures)).sum)).map
        (fun n : Nat => block_vars.image_path (n : Int)) ∧
      (pb.map Prod.fst).Nodup := by
  obtain ⟨hbv, _, pb, hfs, hmap⟩ := execBlockSeq_success_numbering sep teeId scaleBytes
    blocks block_vars gallery_conf proc fs hexec hall
  have hlt := List.pairwise_lt_range' (block_vars.fig_count + 1)
    ((blocks.map (blockFigTotal gallery_conf.find_mayavi_figures)).sum)
  refine ⟨by rw [hbv], hlt, pb, hfs, hmap, ?_⟩
  rw [hmap]
  apply List.Nodup.map
  · rw [hpath]
    intro a b hab
    exact imgTemplate_inj pre ".png" a b hab
  · exact hlt.imp (fun hlt2 => Nat.ne_of_lt hlt2)

/-- C6 witness: two blocks producing two and one figures number their
files 001, 002, 003 with no gap or reuse. -/
theorem C6_witness :
    (execBlockSeq '/' 1 (fun b _ _ => b)
        [(.success "" [(1, "b1"), (2, "b2")] [] 1, "c1", 2),
         (.success "" [(1, "b3")] [] 1, "c2", 5)]
        ⟨true, 0, fun n => "img_" ++ pad3Int n ++ ".png", "/src/plot_a.py"⟩
        ⟨"/src", true, false, [], 0, (400, 280), none, false, false, [], true⟩
        ⟨"/cwd", 0, [], [], [], true⟩ (fun _ => none)).2.1.fig_count = 0 + 3 ∧
    (List.range' (0 + 1) 3).Pairwise (· < ·) ∧
    ∃ pb : List (String × String),
      (execBlockSeq '/' 1 (fun b _ _ => b)
        [(.success "" [(1, "b1"), (2, "b2")] [] 1, "c1", 2),
         (.success "" [(1, "b3")] [] 1, "c2", 5)]
        ⟨true, 0, fun n => "img_" ++ pad3Int n ++ ".png", "/src/plot_a.py"⟩
        ⟨"/src", true, false, [], 0, (400, 280), none, false, false, [], true⟩
        ⟨"/cwd", 0, [], [], [], true⟩ (fun _ => none)).2.2.2.2 =
          pb.foldl (fun acc p => fsWrite acc p.1 p.2) (fun _ => none) ∧
      pb.map Prod.fst = (List.range' (0 + 1) 3).map
        (fun n : Nat => ((fun n : Int => "img_" ++ pad3Int n ++ ".png") (n : Int))) ∧
      (pb.map Prod.fst).Nodup := by
  have h := C6_figure_numbering_contiguous '/' 1 (fun b _ _ => b)
    [(.success "" [(1, "b1"), (2, "b2")] [] 1, "c1", 2),
     (.success "" [(1, "b3")] [] 1, "c2", 5)]
    ⟨true, 0, fun n => "img_" ++ pad3Int n ++ ".png", "/src/plot_a.py"⟩
    ⟨"/src", true, false, [], 0, (400, 280), none, false, false, [], true⟩
    ⟨"/cwd", 0, [], [], [], true⟩ (fun _ => none) "img_"
    rfl rfl ?_
  · exact h
  · intro e he
    rcases List.mem_cons.mp he with rfl | he2
    · show ([((1 : Nat), "b1"), (2, "b2")].map Prod.fst) =
        List.range' 1 ([((1 : Nat), "b1"), (2, "b2")].length)
      decide
    · rcases List.mem_cons.mp he2 with rfl | he3
      · show ([((1 : Nat), "b3")].map Prod.fst) =
          List.range' 1 ([((1 : Nat), "b3")].length)
        decide
      · simp at he3

/-! ### Frame lemmas for the filesystem threading -/

theorem fsWrite_at (fs : FS) (k v : String) : fsWrite fs k v k = some v := by
  simp [fsWrite]

theorem fsWrite_ne (fs : FS) (k v p : String) (h : p ≠ k) :
    fsWrite fs k v p = fs p := by
  simp [fsWrite, h]

theorem ne_self_append (s t : String) (ht : t ≠ "") : s ≠ s ++ t := by
  intro h
  have hd := congrArg (fun x => x.data.length) h
  simp only [String.data_append, List.length_append] at hd
  have : t.data.length = 0 := by omega
  exact ht (String.ext (List.length_eq_zero.mp this))

theorem isPrefixData_exists {a b : List Char} (h : isPrefixData a b = true) :
    ∃ r, b = a ++ r := by
  induction a generalizing b with
  | nil => exact ⟨b, rfl⟩
  | cons c asl ih =>
    cases b with
    | nil => simp [isPrefixData] at h
    | cons d bs =>
      simp only [isPrefixData, Bool.and_eq_true, decide_eq_true_eq] at h
      obtain ⟨rfl, h2⟩ := h
      obtain ⟨r, rfl⟩ := ih h2
      exact ⟨r, rfl⟩

theorem endsWith_lastCharOf (suf : List Char) (s : String)
    (h : endsWithData suf s.data = true) (hne : suf ≠ []) :
    lastCharOf s = suf.getLast? := by
  unfold endsWithData at h
  obtain ⟨r, hr⟩ := isPrefixData_exists h
  have hs : s.data = r.reverse ++ suf := by
    have := congrArg List.reverse hr
    simpa using this
  unfold lastCharOf
  rw [hs]
  exact List.getLast?_append_of_ne_nil _ hne

theorem lastCharOf_pathJoin (sep : Char) (a b : String) (hb : b ≠ "") :
    lastCharOf (pathJoin sep a b) = lastCharOf b := by
  unfold pathJoin
  rw [show a ++ (⟨[sep]⟩ : String) ++ b = (a ++ ⟨[sep]⟩) ++ b from rfl]
  exact lastCharOf_append _ b hb

theorem foldl_fsWrite_frame (l : List (String × String)) :
    ∀ (fs : FS) (p : String), (∀ q ∈ l, q.1 ≠ p) →
      (l.foldl (fun acc q => fsWrite acc q.1 q.2) fs) p = fs p := by
  induction l with
  | nil => intro fs p _; rfl
  | cons q rest ih =>
    intro fs p hall
    show (rest.foldl _ (fsWrite fs q.1 q.2)) p = fs p
    rw [ih (fsWrite fs q.1 q.2) p (fun x hx => hall x (by simp [hx]))]
    exact fsWrite_ne fs q.1 q.2 p (fun h => hall q (by simp) h.symm)

theorem save_figures_frame (sep : Char) (scaleBytes : String → Nat → Nat → String)
    (image_path : Int → String) (fig_count : Nat) (gallery_conf : GalleryConf)
    (figs : List (Nat × String)) (scenes : List String) (fs : FS) (p : String)
    (h : ∀ n : Int, image_path n ≠ p) :
    (save_figures sep scaleBytes image_path fig_count gallery_conf figs scenes fs).2 p
      = fs p := by
  unfold save_figures
  by_cases hmay : gallery_conf.find_mayavi_figures
  · simp only [hmay, if_true]
    rw [foldl_fsWrite_frame _ _ p ?_, foldl_fsWrite_frame _ _ p ?_]
    · intro q hq
      obtain ⟨x, _, rfl⟩ := List.mem_map.mp hq
      exact h _
    · intro q hq
      obtain ⟨x, _, rfl⟩ := List.mem_map.mp hq
      exact h _
  · have hmay2 : gallery_conf.find_mayavi_figures = false := by
      cases hx : gallery_conf.find_mayavi_figures
      · rfl
      · exact absurd hx hmay
    rw [hmay2]
    simp only [Bool.false_eq_true, if_false]
    rw [foldl_fsWrite_frame _ _ p ?_]
    intro q hq
    obtain ⟨x, _, rfl⟩ := List.mem_map.mp hq
    exact h _

theorem execute_code_block_fs_frame (sep : Char) (teeId : Nat)
    (scaleBytes : String → Nat → Nat → String) (outcome : ExecOutcome)
    (code_block : String) (lineno : Nat) (block_vars : BlockVars)
    (gallery_conf : GalleryConf) (proc : ProcState) (fs : FS) (p : String)
    (h : ∀ n : Int, block_vars.image_path n ≠ p) :
    (execute_code_block sep teeId scaleBytes outcome code_block lineno
      block_vars gallery_conf proc fs).2.2.2.2 p = fs p := by
  unfold execute_code_block
  by_cases hexec : block_vars.execute_script = false
  · simp [hexec]
  · simp only [hexec, if_false]
    cases outcome with
    | failure exc =>
      unfold handle_exception
      by_cases ha : gallery_conf.abort_on_example_error <;> simp [ha]
    | success out figs scenes t =>
      simp only []
      exact save_figures_frame sep scaleBytes block_vars.image_path
        block_vars.fig_count gallery_conf figs scenes fs p h

theorem execute_code_block_keeps_template (sep : Char) (teeId : Nat)
    (scaleBytes : String → Nat → Nat → String) (outcome : ExecOutcome)
    (code_block : String) (lineno : Nat) (block_vars : BlockVars)
    (gallery_conf : GalleryConf) (proc : ProcState) (fs : FS) :
    (execute_code_block sep teeId scaleBytes outcome code_block lineno
      block_vars gallery_conf proc fs).2.1.image_path = block_vars.image_path := by
  unfold execute_code_block
  by_cases hexec : block_vars.execute_script = false
  · simp [hexec]
  · simp only [hexec, if_false]
    cases outcome with
    | failure exc =>
      unfold handle_exception
      by_cases ha : gallery_conf.abort_on_example_error <;> simp [ha]
    | success out figs scenes t => simp

/-! ### The per-block loop: execute_script bookkeeping and fs frame -/

def isSuccessOutcome : ExecOutcome → Bool
| .success _ _ _ _ => true
| .failure _ => false

/-- Number of code blocks (the blocks that consume an exec outcome). -/
def countCode : List Block → Nat
| [] => 0
| b :: r => (match b.label with | .code => 1 | .text => 0) + countCode r

theorem execute_code_block_failure_eq (sep : Char) (teeId : Nat)
    (scaleBytes : String → Nat → Nat → String) (exc : ExcInfo)
    (code_block : String) (lineno : Nat) (block_vars : BlockVars)
    (gallery_conf : GalleryConf) (proc : ProcState) (fs : FS)
    (hexec : block_vars.execute_script = true)
    (habort : gallery_conf.abort_on_example_error = false) :
    execute_code_block sep teeId scaleBytes (.failure exc) code_block lineno
        block_vars gallery_conf proc fs =
      (.ok ("\n" ++ codestr2rst (formatted_exception_of exc) "pytb" none
              gallery_conf.sphinx_ge_1_3 ++ "\n\n\n\n", 0),
       { block_vars with execute_script := false },
       { gallery_conf with failing_examples := gallery_conf.failing_examples ++
           [(block_vars.src_file, formatted_exception_of exc)] },
       { proc with openFigs := [], cwd := proc.cwd, stdout := proc.stdout },
       fs) := by
  unfold execute_code_block handle_exception
  simp [hexec, habort]

theorem execute_code_block_failure_abort (sep : Char) (teeId : Nat)
    (scaleBytes : String → Nat → Nat → String) (exc : ExcInfo)
    (code_block : String) (lineno : Nat) (block_vars : BlockVars)
    (gallery_conf : GalleryConf) (proc : ProcState) (fs : FS)
    (hexec : block_vars.execute_script = true)
    (habort : gallery_conf.abort_on_example_error = true) :
    (execute_code_block sep teeId scaleBytes (.failure exc) code_block lineno
        block_vars gallery_conf proc fs).1 = .error .reraised := by
  unfold execute_code_block handle_exception
  simp [hexec, habort]

theorem execute_code_block_success_parts (sep : Char) (teeId : Nat)
    (scaleBytes : String → Nat → Nat → String) (out : String)
    (figs : List (Nat × String)) (scenes : List String) (t : ℚ)
    (code_block : String) (lineno : Nat) (block_vars : BlockVars)
    (gallery_conf : GalleryConf) (proc : ProcState) (fs : FS)
    (hexec : block_vars.execute_script = true) :
    (execute_code_block sep teeId scaleBytes (.success out figs scenes t)
        code_block lineno block_vars gallery_conf proc fs).2.1.execute_script = true ∧
    (execute_code_block sep teeId scaleBytes (.success out figs scenes t)
        code_block lineno block_vars gallery_conf proc fs).2.2.1 = gallery_conf ∧
    ∃ v, (execute_code_block sep teeId scaleBytes (.success out figs scenes t)
        code_block lineno block_vars gallery_conf proc fs).1 = .ok v := by
  unfold execute_code_block
  simp [hexec]

theorem all_range_shift (f : Nat → Bool) (n idx : Nat) :
    (List.range (1 + n)).all (fun i => f (idx + i)) =
      (f idx && (List.range n).all fun i => f (idx + 1 + i)) := by
  rw [show 1 + n = n + 1 by omega, List.range_succ_eq_map]
  simp only [List.all_cons, List.all_map, Nat.add_zero]
  have hfun : ((fun i => f (idx + i)) ∘ Nat.succ) = (fun i => f (idx + 1 + i)) := by
    funext i
    show f (idx + (i + 1)) = f (idx + 1 + i)
    congr 1
    omega
  rw [hfun]

theorem processBlocks_flag (sep : Char) (teeId : Nat)
    (scaleBytes : String → Nat → Nat → String) (outcomes : Nat → ExecOutcome)
    (file_conf : List (String × PyLit)) (nb : Bool) :
    ∀ (blocks : List Block) (idx : Nat) (rst : String) (te : ℚ)
      (block_vars : BlockVars) (gallery_conf : GalleryConf) (proc : ProcState)
      (fs : FS) (res : String × ℚ),
      (processBlocks sep teeId scaleBytes outcomes file_conf nb blocks idx rst te
        block_vars gallery_conf proc fs).1 = .ok res →
      (processBlocks sep teeId scaleBytes outcomes file_conf nb blocks idx rst te
        block_vars gallery_conf proc fs).2.1.execute_script =
        (block_vars.execute_script &&
          (List.range (countCode blocks)).all
            fun i => isSuccessOutcome (outcomes (idx + i))) := by
  intro blocks
  induction blocks with
  | nil =>
    intro idx rst te bv gc proc fs res _
    simp [processBlocks, countCode]
  | cons b rest ih =>
    intro idx rst te bv gc proc fs res hok
    rcases hlab : b.label with _ | _
    · -- text block
      have hcc : countCode (b :: rest) = countCode rest := by
        show (match b.label with | .code => 1 | .text => 0) + countCode rest
          = countCode rest
        rw [hlab]
        simp
      simp only [processBlocks, hlab] at hok ⊢
      rw [hcc]
      exact ih idx _ _ bv gc proc fs res hok
    · -- code block
      have hcc : countCode (b :: rest) = 1 + countCode rest := by
        show (match b.label with | .code => 1 | .text => 0) + countCode rest
          = 1 + countCode rest
        rw [hlab]
      have hsh := all_range_shift (fun j => isSuccessOutcome (outcomes j))
        (countCode rest) idx
      rw [hcc, hsh]
      by_cases hbf : bv.execute_script = false
      · simp only [processBlocks, hlab] at hok ⊢
        rw [execute_code_block_skip sep teeId scaleBytes (outcomes idx)
          b.content b.lineno bv gc proc fs hbf] at hok ⊢
        simp only [] at hok ⊢
        rw [ih (idx + 1) _ _ bv gc proc fs res hok, hbf]
        simp
      · have hbt : bv.execute_script = true := by
          cases hx : bv.execute_script
          · exact absurd hx hbf
          · rfl
        cases hoc : outcomes idx with
        | success out figs scenes t =>
          obtain ⟨hf2, hgc2, v, hv⟩ := execute_code_block_success_parts sep teeId
            scaleBytes out figs scenes t b.content b.lineno bv gc proc fs hbt
          simp only [processBlocks, hlab] at hok ⊢
          rw [hoc] at hok ⊢
          rw [hv] at hok ⊢
          rcases v with ⟨code_output, rtime⟩
          simp only [] at hok ⊢
          have hrec := ih (idx + 1) _ _ _ _ _ _ res hok
          rw [hrec, hf2, hbt]
          simp [isSuccessOutcome]
        | failure exc =>
          by_cases ha : gc.abort_on_example_error = true
          · exfalso
            have herr := execute_code_block_failure_abort sep teeId scaleBytes exc
              b.content b.lineno bv gc proc fs hbt ha
            simp only [processBlocks, hlab] at hok
            rw [hoc] at hok
            rw [herr] at hok
            simp at hok
          · have ha2 : gc.abort_on_example_error = false := by
              cases hx : gc.abort_on_example_error
              · rfl
              · exact absurd hx ha
            have heq := execute_code_block_failure_eq sep teeId scaleBytes exc
              b.content b.lineno bv gc proc fs hbt ha2
            simp only [processBlocks, hlab] at hok ⊢
            rw [hoc] at hok ⊢
            rw [heq] at hok ⊢
            simp only [] at hok ⊢
            have hrec := ih (idx + 1) _ _ _ _ _ _ res hok
            rw [hrec]
            simp [isSuccessOutcome, hbt]

theorem processBlocks_fs_frame (sep : Char) (teeId : Nat)
    (scaleBytes : String → Nat → Nat → String) (outcomes : Nat → ExecOutcome)
    (file_conf : List (String × PyLit)) (nb : Bool) :
    ∀ (blocks : List Block) (idx : Nat) (rst : String) (te : ℚ)
      (block_vars : BlockVars) (gallery_conf : GalleryConf) (proc : ProcState)
      (fs : FS) (p : String),
      (∀ n : Int, block_vars.image_path n ≠ p) →
      (processBlocks sep teeId scaleBytes outcomes file_conf nb blocks idx rst te
        block_vars gallery_conf proc fs).2.2.2.2 p = fs p := by
  intro blocks
  induction blocks with
  | nil => intro idx rst te bv gc proc fs p _; rfl
  | cons b rest ih =>
    intro idx rst te bv gc proc fs p hp
    rcases hlab : b.label with _ | _
    · simp only [processBlocks, hlab]
      exact ih idx _ _ bv gc proc fs p hp
    · simp only [processBlocks, hlab]
      have hframe := execute_code_block_fs_frame sep teeId scaleBytes (outcomes idx)
        b.content b.lineno bv gc proc fs p hp
      have htmpl := execute_code_block_keeps_template sep teeId scaleBytes
        (outcomes idx) b.content b.lineno bv gc proc fs
      rcases hr : (execute_code_block sep teeId scaleBytes (outcomes idx)
          b.content b.lineno bv gc proc fs).1 with e | v
      · simp only [hr]
        rw [← hframe]
      · simp only [hr]
        rcases v with ⟨code_output, rtime⟩
        simp only []
        rw [ih (idx + 1) _ _ _ _ _ _ p (by rw [htmpl]; exact hp)]
        exact hframe

theorem append_ne_empty_of_right (s t : String) (ht : t ≠ "") : s ++ t ≠ "" := by
  intro h
  have hd := congrArg String.data h
  rw [String.data_append] at hd
  exact ht (String.ext (List.append_eq_nil.mp hd).2)

theorem isPrefixData_self_append (a r : List Char) :
    isPrefixData a (a ++ r) = true := by
  induction a with
  | nil => rfl
  | cons c as ih => simpa [isPrefixData] using ih

theorem endsWithData_append_left (suf l1 l2 : List Char)
    (h : endsWithData suf l2 = true) : endsWithData suf (l1 ++ l2) = true := by
  unfold endsWithData at h ⊢
  obtain ⟨r, hr⟩ := isPrefixData_exists h
  rw [List.reverse_append, hr, List.append_assoc]
  exact isPrefixData_self_append _ _

theorem lastCharOf_append_string (a : String) (suf : String) (hs : suf ≠ "") :
    lastCharOf (a ++ suf) = lastCharOf suf :=
  lastCharOf_append a suf hs

theorem save_thumbnail_frame (sep : Char) (scaleBytes : String → Nat → Nat → String)
    (glr_static : String) (image_path_template : Int → String) (src_file : String)
    (file_conf : List (String × PyLit)) (gallery_conf : GalleryConf) (fs : FS)
    (p : String) (hp : lastCharOf p ≠ some 'g') :
    (save_thumbnail sep scaleBytes glr_static image_path_template src_file
      file_conf gallery_conf fs).2 p = fs p := by
  unfold save_thumbnail
  rcases (confGet file_conf "thumbnail_number").getD (.pInt 1) with n | s | b | _ | q | xs
  all_goals simp only []
  case pInt =>
    split
    · rfl
    · rename_i img himg
      rcases fs img with _ | bytes
      · rfl
      · apply fsWrite_ne
        intro hpe
        apply hp
        rw [hpe]
        rw [lastCharOf_pathJoin _ _ _ (append_ne_empty_of_right _ _ (by decide))]
        rw [lastCharOf_append_string _ _ (by decide)]
        rfl
  case pBool =>
    split
    · rfl
    · rename_i img himg
      rcases fs img with _ | bytes
      · rfl
      · apply fsWrite_ne
        intro hpe
        apply hp
        rw [hpe]
        rw [lastCharOf_pathJoin _ _ _ (append_ne_empty_of_right _ _ (by decide))]
        rw [lastCharOf_append_string _ _ (by decide)]
        rfl

theorem processBlocks_fs_frame_of_ok (sep : Char) (teeId : Nat)
    (scaleBytes : String → Nat → Nat → String) (outcomes : Nat → ExecOutcome)
    (file_conf : List (String × PyLit)) (nb : Bool)
    (blocks : List Block) (idx : Nat) (rst : String) (te : ℚ)
    (block_vars : BlockVars) (gallery_conf : GalleryConf) (proc : ProcState)
    (fs : FS) (res : String × ℚ)
    (_hok : (processBlocks sep teeId scaleBytes outcomes file_conf nb blocks idx rst te
        block_vars gallery_conf proc fs).1 = .ok res)
    (p : String) (hp : ∀ n : Int, block_vars.image_path n ≠ p) :
    (processBlocks sep teeId scaleBytes outcomes file_conf nb blocks idx rst te
        block_vars gallery_conf proc fs).2.2.2.2 p = fs p :=
  processBlocks_fs_frame sep teeId scaleBytes outcomes file_conf nb blocks idx rst te
    block_vars gallery_conf proc fs p hp

theorem save_thumbnail_frame_of (sep : Char) (scaleBytes : String → Nat → Nat → String)
    (glr_static : String) (image_path_template : Int → String) (src_file : String)
    (file_conf : List (String × PyLit)) (gallery_conf : GalleryConf) (fs : FS)
    (r : Except PyErr Unit) (fs4 : FS)
    (hst : save_thumbnail sep scaleBytes glr_static image_path_template src_file
      file_conf gallery_conf fs = (r, fs4))
    (p : String) (hp : lastCharOf p ≠ some 'g') : fs4 p = fs p := by
  have h := save_thumbnail_frame sep scaleBytes glr_static image_path_template src_file
    file_conf gallery_conf fs p hp
  rw [hst] at h
  exact h

theorem lastCharOf_replace_py_ipynb (f : String)
    (h : endsWithData ".py".data f.data = true) :
    lastCharOf (replace_py_ipynb f) = some 'b' := by
  unfold replace_py_ipynb lastCharOf
  rw [if_pos h]
  show (f.data.take (f.data.length - 3) ++ ".ipynb".data).getLast? = some 'b'
  rw [List.getLast?_append_of_ne_nil _ (by decide)]
  rfl

/-- C3: (a) a copied file is considered cached exactly when its `.md5`
sidecar exists and holds the fresh hash of the copied content; (b) on a
cache hit `generate_file_rst` returns the intro with zero elapsed time and
leaves everything untouched apart from the unconditional source copy (no
execution, no assembly, no artifact writes); (c) whenever a run completes,
the sidecar holds the fresh hash exactly in the runs whose file was marked
for execution and had no failing block, and is untouched otherwise. -/
theorem C3_md5_cache_policy (fr : FileRun) (fname target_dir src_dir : String)
    (gallery_conf : GalleryConf) (proc : ProcState) (fs : FS) (content : String)
    (conf : List (String × PyLit)) (blocks : List Block) (intro title : String)
    (hsrc : fs (pathJoin fr.sep src_dir fname) = some content)
    (hpy : endsWithData ".py".data fname.data = true)
    (hsplit : split_code_and_text_blocks fr.literalEval content fr.po =
      .ok (conf, blocks))
    (hintro : extract_intro_and_title ((blocks.headD ⟨.text, "", 1⟩).content) =
      .ok (intro, title)) :
    (md5sum_is_current fr.md5h
        (fsWrite fs (pathJoin fr.sep target_dir fname) content)
        (pathJoin fr.sep target_dir fname) = .ok true ↔
      fs (pathJoin fr.sep target_dir fname ++ ".md5") = some (fr.md5h content)) ∧
    (fs (pathJoin fr.sep target_dir fname ++ ".md5") = some (fr.md5h content) →
      generate_file_rst fr fname target_dir src_dir gallery_conf proc fs =
        (.ok (intro, 0), gallery_conf, proc,
         fsWrite fs (pathJoin fr.sep target_dir fname) content)) ∧
    (∀ res, (generate_file_rst fr fname target_dir src_dir gallery_conf proc fs).1 =
        .ok res →
      (generate_file_rst fr fname target_dir src_dir gallery_conf proc fs).2.2.2
          (pathJoin fr.sep target_dir fname ++ ".md5") =
        if fr.filename_match && gallery_conf.plot_gallery &&
            (List.range (countCode blocks)).all
              (fun i => isSuccessOutcome (fr.outcomes i))
        then some (fr.md5h content)
        else fs (pathJoin fr.sep target_dir fname ++ ".md5")) := by
  have hexne : pathJoin fr.sep target_dir fname ++ ".md5" ≠
      pathJoin fr.sep target_dir fname :=
    fun h => ne_self_append _ ".md5" (by decide) h.symm
  have hiff : md5sum_is_current fr.md5h
      (fsWrite fs (pathJoin fr.sep target_dir fname) content)
      (pathJoin fr.sep target_dir fname) = .ok true ↔
      fs (pathJoin fr.sep target_dir fname ++ ".md5") = some (fr.md5h content) := by
    unfold md5sum_is_current get_md5sum
    rw [fsWrite_at, fsWrite_ne _ _ _ _ hexne]
    simp only []
    rcases hsc : fs (pathJoin fr.sep target_dir fname ++ ".md5") with _ | ref
    · simp
    · simp only [Option.some.injEq]
      constructor
      · intro h
        injection h with h
        have := of_decide_eq_true h
        rw [this]
      · intro h
        rw [← h]
        simp
  refine ⟨hiff, ?_, ?_⟩
  · intro hcache
    unfold generate_file_rst
    dsimp only
    rw [hsrc]
    dsimp only
    rw [hsplit]
    dsimp only
    rw [hintro]
    dsimp only
    rw [hiff.mpr hcache]
  · intro res hok
    have hfname_ne : fname ≠ "" := by
      intro h
      rw [h] at hpy
      exact absurd hpy (by decide)
    have hlastEX : lastCharOf (pathJoin fr.sep target_dir fname) = some 'y' := by
      rw [lastCharOf_pathJoin _ _ _ hfname_ne]
      rw [endsWith_lastCharOf ".py".data fname hpy (by decide)]
      rfl
    have hlastSC : lastCharOf (pathJoin fr.sep target_dir fname ++ ".md5") = some '5' := by
      rw [lastCharOf_append _ ".md5" (by decide)]
      rfl
    have htmpl_g : ∀ (idir pre : String) (n : Int),
        lastCharOf (pathJoin fr.sep idir (pre ++ pad3Int n ++ ".png")) = some 'g' := by
      intro idir pre n
      rw [lastCharOf_pathJoin _ _ _ (append_ne_empty_of_right _ _ (by decide))]
      rw [lastCharOf_append _ ".png" (by decide)]
      rfl
    have hEXpy : endsWithData ".py".data (pathJoin fr.sep target_dir fname).data = true := by
      show endsWithData ".py".data (target_dir ++ (⟨[fr.sep]⟩ : String) ++ fname).data = true
      rw [String.data_append]
      exact endsWithData_append_left _ _ _ hpy
    have hne_ipynb : pathJoin fr.sep target_dir fname ++ ".md5" ≠
        replace_py_ipynb (pathJoin fr.sep target_dir fname) := by
      apply ne_of_lastCharOf_ne
      rw [hlastSC, lastCharOf_replace_py_ipynb _ hEXpy]
      decide
    have hne_rst : pathJoin fr.sep target_dir fname ++ ".md5" ≠
        pathJoin fr.sep target_dir (splitextRoot fname ++ ".rst") := by
      apply ne_of_lastCharOf_ne
      rw [hlastSC, lastCharOf_pathJoin _ _ _ (append_ne_empty_of_right _ _ (by decide)),
        lastCharOf_append_string _ _ (by decide)]
      decide
    unfold generate_file_rst at hok ⊢
    dsimp only at hok ⊢
    rw [hsrc] at hok ⊢
    dsimp only at hok ⊢
    rw [hsplit] at hok ⊢
    dsimp only at hok ⊢
    rw [hintro] at hok ⊢
    dsimp only at hok ⊢
    rcases hmd : md5sum_is_current fr.md5h
        (fsWrite fs (pathJoin fr.sep target_dir fname) content)
        (pathJoin fr.sep target_dir fname) with e | b
    · rw [hmd] at hok
      exact absurd hok (by simp)
    · rcases b with _ | _
      · -- cache miss: the full pipeline runs
        rw [hmd] at hok
        dsimp only at hok ⊢
        split at hok
        · exact absurd hok (by simp)
        · rename_i example_rst1 time_elapsed heq
          have hflag := processBlocks_flag _ _ _ _ _ _ _ _ _ _ _ _ _ _ _ heq
          dsimp only at hflag
          have h0 : (fun i => isSuccessOutcome (fr.outcomes (0 + i))) =
              (fun i : Nat => isSuccessOutcome (fr.outcomes i)) := by
            funext i
            rw [Nat.zero_add]
          rw [h0] at hflag
          have hfs2EX := processBlocks_fs_frame_of_ok _ _ _ _ _ _ _ _ _ _ _ _ _ _ _ heq
            (pathJoin fr.sep target_dir fname)
            (by
              intro n
              apply ne_of_lastCharOf_ne
              dsimp only
              rw [htmpl_g, hlastEX]
              decide)
          rw [fsWrite_at] at hfs2EX
          have hfs2SC := processBlocks_fs_frame_of_ok _ _ _ _ _ _ _ _ _ _ _ _ _ _ _ heq
            (pathJoin fr.sep target_dir fname ++ ".md5")
            (by
              intro n
              apply ne_of_lastCharOf_ne
              dsimp only
              rw [htmpl_g, hlastSC]
              decide)
          rw [fsWrite_ne _ _ _ _ hexne] at hfs2SC
          rw [hflag] at hok ⊢
          rcases hcond : fr.filename_match && gallery_conf.plot_gallery &&
              (List.range (countCode blocks)).all
                (fun i : Nat => isSuccessOutcome (fr.outcomes i)) with _ | _
          · -- not marked for execution or some block failed: no digest write
            rw [hcond] at hok
            simp only [Bool.false_eq_true, if_false] at hok ⊢
            split at hok
            · exact absurd hok (by simp)
            · rename_i a fs4 heq2
              dsimp only
              rw [fsWrite_ne _ _ _ _ hne_rst, fsWrite_ne _ _ _ _ hne_ipynb]
              have h4 := save_thumbnail_frame_of _ _ _ _ _ _ _ _ _ _ heq2
                (pathJoin fr.sep target_dir fname ++ ".md5")
                (by rw [hlastSC]; decide)
              rw [h4]
              exact hfs2SC
          · -- marked for execution and every block succeeded: digest written
            rw [hcond] at hok
            simp only [eq_self_iff_true, if_true] at hok ⊢
            unfold get_md5sum at hok ⊢
            rw [hfs2EX] at hok ⊢
            simp only [Except.map] at hok ⊢
            split at hok
            · exact absurd hok (by simp)
            · rename_i a fs4 heq2
              dsimp only
              rw [fsWrite_ne _ _ _ _ hne_rst, fsWrite_ne _ _ _ _ hne_ipynb]
              have h4 := save_thumbnail_frame_of _ _ _ _ _ _ _ _ _ _ heq2
                (pathJoin fr.sep target_dir fname ++ ".md5")
                (by rw [hlastSC]; decide)
              rw [h4, fsWrite_at]
      · -- cache hit inside conjunct (c): sidecar already holds the hash
        rw [hmd] at hok
        dsimp only at hok ⊢
        have hit := hiff.mp hmd
        rw [fsWrite_ne _ _ _ _ hexne]
        by_cases hc : (fr.filename_match && gallery_conf.plot_gallery &&
            (List.range (countCode blocks)).all
              fun i => isSuccessOutcome (fr.outcomes i)) = true
        · rw [if_pos hc, hit]
        · rw [if_neg hc]

/-- C3 witness: a concrete cache hit — the sidecar holds the identity-hash
of the source content — returns the intro with zero elapsed time, leaving
only the unconditional copy write in the filesystem. -/
theorem C3_witness :
    generate_file_rst
      ⟨⟨true, "Title", 1⟩, (fun _ => none), true, (fun _ => .success "" [] [] 1), 0,
        (fun s => s), (fun b _ _ => b), (fun _ => ""), (fun _ _ _ => ""), (fun _ => ""),
        "st", '/'⟩
      "plot_a.py" "t" "s"
      ⟨"/src", true, false, [], 0, (400, 280), none, false, false, [], true⟩
      ⟨"/cwd", 0, [], [], [], true⟩
      (fun p => if p = "s/plot_a.py" then some "\"\"\"Title\"\"\"\nx = 1\n"
                else if p = "t/plot_a.py.md5" then some "\"\"\"Title\"\"\"\nx = 1\n"
                else none) =
      (.ok ("Title", 0),
       ⟨"/src", true, false, [], 0, (400, 280), none, false, false, [], true⟩,
       ⟨"/cwd", 0, [], [], [], true⟩,
       fsWrite
         (fun p => if p = "s/plot_a.py" then some "\"\"\"Title\"\"\"\nx = 1\n"
                   else if p = "t/plot_a.py.md5" then some "\"\"\"Title\"\"\"\nx = 1\n"
                   else none)
         (pathJoin '/' "t" "plot_a.py") "\"\"\"Title\"\"\"\nx = 1\n") := by
  exact (C3_md5_cache_policy
    ⟨⟨true, "Title", 1⟩, (fun _ => none), true, (fun _ => .success "" [] [] 1), 0,
      (fun s => s), (fun b _ _ => b), (fun _ => ""), (fun _ _ _ => ""), (fun _ => ""),
      "st", '/'⟩
    "plot_a.py" "t" "s"
    ⟨"/src", true, false, [], 0, (400, 280), none, false, false, [], true⟩
    ⟨"/cwd", 0, [], [], [], true⟩
    (fun p => if p = "s/plot_a.py" then some "\"\"\"Title\"\"\"\nx = 1\n"
              else if p = "t/plot_a.py.md5" then some "\"\"\"Title\"\"\"\nx = 1\n"
              else none)
    "\"\"\"Title\"\"\"\nx = 1\n" [] [⟨.text, "Title", 1⟩, ⟨.code, "x = 1\n", 2⟩]
    "Title" "Title" rfl (by decide) rfl rfl).2.1 rfl
